import Mathlib

/-!
Verification of `dg_tools` (`deepgram.py`), a command-line wrapper for a
speech-to-text HTTP API.  The Python source is shallowly embedded below:

* JSON values (`Json`) model the Python objects produced by `json.loads`;
  JSON numbers are modelled as exact decimals `m / 10^e` (an `Int` mantissa
  and a power-of-ten exponent), which covers every decimal literal on the
  wire exactly.
* The configuration produced by `parse_args` is the structure `Config`;
  options whose argparse default is `False` are `Option`s, and Python
  truthiness of such an option is `optTruthy` / `floatTruthy`.
* Fallible Python expressions (dictionary subscripts, comparisons on
  non-numbers, undefined names) are embedded in `Except Err`.
* `main`'s effects (network requests, file writes, prints, prompts) are
  recorded as an explicit event trace over an abstract `World`.
-/

namespace DG

mutual
/-- A JSON value, as produced by Python's `json.loads`.  Numbers are exact
decimals: `num m e` denotes `m / 10^e`. -/
inductive Json where
  | null : Json
  | bool : Bool → Json
  | num : Int → Nat → Json
  | str : String → Json
  | arr : JArr → Json
  | obj : JObj → Json
  deriving DecidableEq
/-- A JSON array (its own list type, so all recursion is structural). -/
inductive JArr where
  | nil : JArr
  | cons : Json → JArr → JArr
  deriving DecidableEq
/-- A JSON object: an insertion-ordered association list, mirroring a
Python `dict` (keys kept unique by `JObj.insert`). -/
inductive JObj where
  | nil : JObj
  | cons : String → Json → JObj → JObj
  deriving DecidableEq
end

/-- Python dict lookup `d[k]` (first match). -/
def JObj.lookup : JObj → String → Option Json
  | .nil, _ => none
  | .cons k0 v0 rest, k => if k0 = k then some v0 else rest.lookup k

/-- Python dict assignment `d[k] = v`: replace in place if the key exists,
otherwise append (insertion order preserved). -/
def JObj.insert : JObj → String → Json → JObj
  | .nil, k, v => .cons k v .nil
  | .cons k0 v0 rest, k, v =>
      if k0 = k then .cons k0 v rest else .cons k0 v0 (rest.insert k v)

def JArr.length : JArr → Nat
  | .nil => 0
  | .cons _ xs => xs.length + 1

def JArr.get? : JArr → Nat → Option Json
  | .nil, _ => none
  | .cons x _, 0 => some x
  | .cons _ xs, n + 1 => xs.get? n

def JArr.filter (p : Json → Bool) : JArr → JArr
  | .nil => .nil
  | .cons x xs => if p x then .cons x (JArr.filter p xs) else JArr.filter p xs

def JArr.toList : JArr → List Json
  | .nil => []
  | .cons x xs => x :: xs.toList

def JArr.ofList : List Json → JArr
  | [] => .nil
  | x :: xs => .cons x (JArr.ofList xs)

def JObj.toList : JObj → List (String × Json)
  | .nil => []
  | .cons k v kvs => (k, v) :: kvs.toList

/-- Exceptions that the embedded Python code can raise. -/
inductive Err where
  | keyError (k : String)
  | keyNum (i : Nat)
  | indexError
  | typeError
  | nameError (n : String)
  | ioError
  | jsonError
  | eofError
  deriving DecidableEq

deriving instance DecidableEq for Except

/-- Python subscript `j[k]` with a string key. -/
def getItem (j : Json) (k : String) : Except Err Json :=
  match j with
  | .obj kvs =>
      match kvs.lookup k with
      | some v => .ok v
      | none => .error (.keyError k)
  | _ => .error .typeError

/-- Python subscript `j[i]` with an integer key (list indexing; an integer
key into a dict whose keys are strings raises `KeyError`). -/
def getIdx (j : Json) (i : Nat) : Except Err Json :=
  match j with
  | .arr xs =>
      match xs.get? i with
      | some v => .ok v
      | none => .error .indexError
  | .obj _ => .error (.keyNum i)
  | _ => .error .typeError

/-- A Python float given on the command line, modelled as the exact decimal
`mant / 10^exp` it was written as. -/
structure PyFloat where
  mant : Int
  exp : Nat
  deriving DecidableEq

/-- `m1 / 10^e1 >= t` for the decimal confidence `num m1 e1` against a
threshold, by cross-multiplying (denominators are positive). -/
def decGE (m1 : Int) (e1 : Nat) (t : PyFloat) : Bool :=
  m1 * 10 ^ t.exp ≥ t.mant * 10 ^ e1

/-- The configuration produced by `parse_args` (the field `local` of the
Python namespace is `localMode` here, `local` being a Lean keyword). -/
structure Config where
  user : Option String := none
  password : Option String := none
  storeCreds : Bool := false
  input_file : Option String := none
  input_dir : Option String := none
  output_folder : Option String := none
  localMode : Bool := false
  keep : Bool := false
  url : Option String := none
  model : Option String := none
  language : String := "en-US"
  punctuate : Bool := false
  redact : Option String := none
  verbose : Bool := false
  params : Option String := none
  search : List String := []
  search_threshold : Option PyFloat := none
  fqdn : String := "brain.deepgram.com"

/-- Python truthiness of an argparse option whose default is `False` and
whose value, when given, is a string. -/
def optTruthy : Option String → Bool
  | none => false
  | some s => s ≠ ""

/-- Python truthiness of `args.search_threshold` (default `False`): the
float `0.0` is falsy, every other float truthy. -/
def floatTruthy : Option PyFloat → Bool
  | none => false
  | some t => t.mant ≠ 0

def optStr : Option String → String
  | none => ""
  | some s => s

/-- `parseQuery` (deepgram.py lines 226-250): walk the query flags in order,
appending `key=value` pieces, `?` before the first and `&` before the rest.
The state pair is `(apiParams, apiChar)`. -/
def parseQuery (args : Config) : String :=
  let st : String × String := ("", "?")
  let st := if optTruthy args.model then
      (st.1 ++ st.2 ++ "model=" ++ optStr args.model, "&") else st
  let st := if args.language ≠ "" then
      (st.1 ++ st.2 ++ "language=" ++ args.language, "&") else st
  let st := if args.punctuate then
      (st.1 ++ st.2 ++ "punctuate=true", "&") else st
  let st := if optTruthy args.redact then
      (st.1 ++ st.2 ++ "redact=" ++ optStr args.redact, "&") else st
  let st := if args.search ≠ [] then
      (args.search.foldl (fun a s => a ++ st.2 ++ "search=" ++ s) st.1, "&")
    else st
  if optTruthy args.params then st.1 ++ st.2 ++ optStr args.params else st.1

/-- One line of output: either a printed diagnostic line or the printed
JSON rendering of an output record. -/
inductive Out where
  | line (s : String)
  | record (j : Json)
  deriving DecidableEq

/-- `queryData['results']['channels'][0]['alternatives'][0]['transcript']`
(deepgram.py line 311/334). -/
def transcriptPath (q : Json) : Except Err Json := do
  let r ← getItem q "results"
  let ch ← getItem r "channels"
  let c0 ← getIdx ch 0
  let alts ← getItem c0 "alternatives"
  let a0 ← getIdx alts 0
  getItem a0 "transcript"

/-- `queryData['results']['channels'][0]['search']` (deepgram.py line 314). -/
def searchField (q : Json) : Except Err Json := do
  let r ← getItem q "results"
  let ch ← getItem r "channels"
  let c0 ← getIdx ch 0
  getItem c0 "search"

/-- The confidence comparison `hit['confidence'] >= args.search_threshold`
(line 327): numbers (and bools) compare, anything else raises TypeError. -/
def pyGEfloat (c : Json) (t : PyFloat) : Except Err Bool :=
  match c with
  | .num m e => .ok (decGE m e t)
  | .bool b => .ok (decGE (if b then 1 else 0) 0 t)
  | _ => .error .typeError

/-- The inner hit loop (lines 326-328): collect the hits whose confidence
is at least the threshold, in order. -/
def hitsLoop (t : PyFloat) : JArr → Except Err JArr
  | .nil => .ok .nil
  | .cons h hs =>
      match getItem h "confidence" with
      | .error e => .error e
      | .ok c =>
          match pyGEfloat c t with
          | .error e => .error e
          | .ok b =>
              match hitsLoop t hs with
              | .error e => .error e
              | .ok r => .ok (if b then .cons h r else r)

/-- The search-term loop of `parseTranscript` (lines 321-332): for each
stored search group, if the user requested its query, either filter its
hits by the threshold (dropping the term when no hit survives) or include
the full group.  The loop reads only `args.search` and
`args.search_threshold`, which are passed explicitly. -/
def searchLoop (search : List String) (thr : Option PyFloat) :
    JArr → JObj → Except Err JObj
  | .nil, acc => .ok acc
  | .cons g rest, acc =>
      match getItem g "query" with
      | .error e => .error e
      | .ok q =>
          match q with
          | .str w =>
              if w ∈ search then
                if floatTruthy thr then
                  match getItem g "hits" with
                  | .error e => .error e
                  | .ok hv =>
                      match hv with
                      | .arr hs =>
                          match hitsLoop (thr.getD ⟨0, 0⟩) hs with
                          | .error e => .error e
                          | .ok kept =>
                              if kept.length > 0 then
                                searchLoop search thr rest
                                  (acc.insert w (.obj (.cons "hits" (.arr kept) .nil)))
                              else searchLoop search thr rest acc
                      | _ => .error .typeError
                else searchLoop search thr rest (acc.insert w g)
              else searchLoop search thr rest acc
          | _ => searchLoop search thr rest acc

/-- `parseTranscript` (deepgram.py lines 298-339).  Returns the lines it
prints together with the value it returns (`none` embeds Python's bare
`return`, reached when no search data is found). -/
def parseTranscript (queryData : Json) (args : Config) :
    Except Err (List Out × Option Json) :=
  if args.verbose then
    .ok ([.record queryData], some queryData)
  else if args.search ≠ [] then
    match transcriptPath queryData with
    | .error e => .error e
    | .ok t =>
        let returnedData : JObj := JObj.insert .nil "transcript" t
        match searchField queryData with
        | .error _ => .ok ([.line "No search data found for transcript."], none)
        | .ok sv =>
            if args.search = ["all"] then
              let rd := returnedData.insert "search" sv
              .ok ([.record (.obj rd)], some (.obj rd))
            else
              match sv with
              | .arr groups =>
                  match searchLoop args.search args.search_threshold groups returnedData with
                  | .error e => .error e
                  | .ok rd => .ok ([.record (.obj rd)], some (.obj rd))
              | _ => .error .typeError
  else
    match transcriptPath queryData with
    | .error e => .error e
    | .ok t => .ok ([.record t], some t)

/-- `"&" ++ p` for every part, concatenated. -/
def ampJoin : List String → String
  | [] => ""
  | p :: ps => "&" ++ p ++ ampJoin ps

/-- Parts joined by `&`. -/
def joinParts : List String → String
  | [] => ""
  | p :: ps => p ++ ampJoin ps

/-- Modelled from the spec (§4.3): the `key=value` pieces of the query, in
the fixed order model, language, punctuate, redact, search terms, raw
parameters (repeated `search=` pairs for repeated `--search`). -/
def specQueryParts (args : Config) : List String :=
  (if optTruthy args.model then ["model=" ++ optStr args.model] else []) ++
  (if args.language ≠ "" then ["language=" ++ args.language] else []) ++
  (if args.punctuate then ["punctuate=true"] else []) ++
  (if optTruthy args.redact then ["redact=" ++ optStr args.redact] else []) ++
  args.search.map (fun s => "search=" ++ s) ++
  (if optTruthy args.params then [optStr args.params] else [])

/-- Modelled from the spec (§4.3): the parts joined by `&`, with `?` as the
first separator. -/
def specQuery (args : Config) : String :=
  if specQueryParts args = [] then "" else "?" ++ joinParts (specQueryParts args)

/-- The request target built at deepgram.py line 275:
`"/v2/listen?" + parseQuery(args)`. -/
def apiRequest (args : Config) : String :=
  "/v2/listen?" ++ parseQuery args

/-- Claim C3 as stated: the request target is the literal path `/v2/listen`
followed by exactly one `?` and then the `key=value` pairs of the Query
Builder. -/
def claimC3Statement : Prop :=
  ∀ args : Config, apiRequest args = "/v2/listen?" ++ joinParts (specQueryParts args)

/-- `hit['confidence'] >= t` as a Boolean on well-formed hits: the stored
confidence is a number at least the threshold. -/
def confGE (t : PyFloat) (h : Json) : Bool :=
  match getItem h "confidence" with
  | .ok (.num m e) => decGE m e t
  | _ => false

/-- Every hit of the group carries a numeric `confidence`. -/
def hitsWF : JArr → Bool
  | .nil => true
  | .cons h hs =>
      (match getItem h "confidence" with
       | .ok (.num _ _) => true
       | _ => false) && hitsWF hs

/-- The group's stored `query` is the string `term`. -/
def queryIs (term : String) (g : Json) : Bool :=
  match getItem g "query" with
  | .ok (.str w) => w = term
  | _ => false

/-- A search group over which the loop of `parseTranscript` cannot raise:
it has a `query`, and if that query was requested while a truthy threshold
is set, it has a `hits` array of hits with numeric confidences. -/
def groupWF (search : List String) (thr : Option PyFloat) (g : Json) : Bool :=
  match getItem g "query" with
  | .ok (.str w) =>
      if w ∈ search then
        if floatTruthy thr then
          match getItem g "hits" with
          | .ok (.arr hs) => hitsWF hs
          | _ => false
        else true
      else true
  | .ok _ => true
  | .error _ => false

def groupsWF (search : List String) (thr : Option PyFloat) : JArr → Bool
  | .nil => true
  | .cons g gs => groupWF search thr g && groupsWF search thr gs

/-- The value (if any) the loop body assigns to key `term` when it
processes group `g`: the threshold-filtered hit group when a truthy
threshold is set (nothing if no hit survives), the full group otherwise. -/
def assignOf (search : List String) (thr : Option PyFloat) (term : String)
    (g : Json) : Option Json :=
  match getItem g "query" with
  | .ok (.str w) =>
      if w = term ∧ w ∈ search then
        if floatTruthy thr then
          match getItem g "hits" with
          | .ok (.arr hs) =>
              if (JArr.filter (confGE (thr.getD ⟨0, 0⟩)) hs).length > 0 then
                some (.obj (.cons "hits"
                  (.arr (JArr.filter (confGE (thr.getD ⟨0, 0⟩)) hs)) .nil))
              else none
          | _ => none
        else some g
      else none
  | _ => none

/-- The last assignment the loop makes to key `term` over the whole group
array (later groups overwrite earlier ones, as in a Python dict). -/
def lastAssign (search : List String) (thr : Option PyFloat) (term : String) :
    JArr → Option Json
  | .nil => none
  | .cons g gs =>
      match lastAssign search thr term gs with
      | some v => some v
      | none => assignOf search thr term g

/-- Claim C4 as stated: for every configured threshold `t` and requested
term whose (unique) group is present, the returned hit group holds exactly
the hits with confidence at least `t` — the term being dropped entirely
when no hit survives — and with no threshold the full group is kept. -/
def claimC4Statement : Prop :=
  ∀ (queryData : Json) (args : Config) (t : PyFloat) (tr : Json) (groups : JArr)
    (term : String) (g : Json) (hits : JArr) (l1 l2 : List Json),
    args.verbose = false → args.search ≠ [] → args.search ≠ ["all"] →
    term ∈ args.search → term ≠ "transcript" →
    transcriptPath queryData = .ok tr →
    searchField queryData = .ok (.arr groups) →
    groupsWF args.search args.search_threshold groups = true →
    groups.toList = l1 ++ g :: l2 →
    (∀ g' ∈ l1, queryIs term g' = false) →
    (∀ g' ∈ l2, queryIs term g' = false) →
    queryIs term g = true →
    getItem g "hits" = .ok (.arr hits) →
    ∀ outs rd, parseTranscript queryData args = .ok (outs, some (.obj rd)) →
      (args.search_threshold = some t →
        rd.lookup term =
          (if (JArr.filter (confGE t) hits).length > 0 then
            some (.obj (.cons "hits" (.arr (JArr.filter (confGE t) hits)) .nil))
          else none)) ∧
      (args.search_threshold = none → rd.lookup term = some g)

/-- A sample hit with the given decimal confidence. -/
def sampleHit (c : Int) (e : Nat) : Json :=
  .obj (.cons "confidence" (.num c e) .nil)

/-- A sample search group with the given query and hits. -/
def sampleGroup (q : String) (hits : JArr) : Json :=
  .obj (.cons "query" (.str q) (.cons "hits" (.arr hits) .nil))

/-- A sample response carrying a transcript and search groups at the fixed
paths read by `parseTranscript`. -/
def sampleResp (tr : String) (groups : JArr) : Json :=
  .obj (.cons "results"
    (.obj (.cons "channels"
      (.arr (.cons
        (.obj (.cons "alternatives"
          (.arr (.cons (.obj (.cons "transcript" (.str tr) .nil)) .nil))
          (.cons "search" (.arr groups) .nil))) .nil)) .nil)) .nil)

/-- A sample response with a transcript but no `search` field. -/
def sampleRespNoSearch (tr : String) : Json :=
  .obj (.cons "results"
    (.obj (.cons "channels"
      (.arr (.cons
        (.obj (.cons "alternatives"
          (.arr (.cons (.obj (.cons "transcript" (.str tr) .nil)) .nil))
          .nil)) .nil)) .nil)) .nil)

/-- An observable effect of a run. -/
inductive Event where
  | netCall (host target payload : String)
  | fileWrite (path contents : String)
  | mkdir (path : String)
  | print (o : Out)
  | prompt (question answer : String)
  | sysCmd (cmd : String)
  deriving DecidableEq

def Event.isNet : Event → Bool
  | .netCall _ _ _ => true
  | _ => false

def Event.isWrite : Event → Bool
  | .fileWrite _ _ => true
  | _ => false

def Event.isRecord : Event → Bool
  | .print (.record _) => true
  | _ => false

/-- The abstract environment a run interacts with: the file system, the
directory predicate and listing, the environment variables and the remote
service (mapping request target and payload to the parsed response body). -/
structure World where
  files : String → Option String
  isDir : String → Bool
  listDir : String → List String
  env : String → Option String
  net : String → String → Json

/-- `input(question)` / `getpass.getpass(question)`: consume one line from
the interactive input stream (EOFError when it is exhausted), recording
the prompt as an event. -/
def promptLine (q : String) (inputs : List String) :
    Except Err (String × List Event × List String) :=
  match inputs with
  | [] => .error .eofError
  | a :: rest => .ok (a, [.prompt q a], rest)

/-- Python's `needle in hay` on strings. -/
def strContains (hay needle : String) : Bool :=
  hay.toList.tails.any (fun t => needle.toList.isPrefixOf t)

/-- UTF-8 encoding of one character. -/
def utf8Bytes (c : Char) : List Nat :=
  let n := c.toNat
  if n < 0x80 then [n]
  else if n < 0x800 then [0xC0 + n / 0x40, 0x80 + n % 0x40]
  else if n < 0x10000 then
    [0xE0 + n / 0x1000, 0x80 + (n / 0x40) % 0x40, 0x80 + n % 0x40]
  else
    [0xF0 + n / 0x40000, 0x80 + (n / 0x1000) % 0x40, 0x80 + (n / 0x40) % 0x40,
      0x80 + n % 0x40]

def strBytes (s : String) : List Nat := (s.toList.map utf8Bytes).flatten

def b64Char (n : Nat) : Char :=
  "ABCDEFGHIJKLMNOPQRSTUVWXYZabcdefghijklmnopqrstuvwxyz0123456789+/".toList.getD n '='

def b64Chunks : List Nat → List Char
  | [] => []
  | [a] => [b64Char (a / 4), b64Char (a % 4 * 16), '=', '=']
  | [a, b] => [b64Char (a / 4), b64Char (a % 4 * 16 + b / 16), b64Char (b % 16 * 4), '=']
  | a :: b :: c :: rest =>
      b64Char (a / 4) :: b64Char (a % 4 * 16 + b / 16) ::
        b64Char (b % 16 * 4 + c / 64) :: b64Char (c % 64) :: b64Chunks rest

/-- `base64.b64encode` over the UTF-8 bytes of the string. -/
def b64encode (s : String) : String := String.mk (b64Chunks (strBytes s))

/-- `parseCredentials` (deepgram.py lines 170-223): return `DG_AUTH`
verbatim when present and `--store-credentials` is unset; otherwise
resolve username and password (flags or prompts), Base64-encode
`user:pass`, and, when `--store-credentials` is set, try to persist it via
the detected shell's profile.  Returns the token, the events performed and
the remaining input stream. -/
def parseCredentials (args : Config) (w : World) (inputs0 : List String) :
    Except Err (String × List Event × List String) :=
  if ¬ args.storeCreds ∧ (w.env "DG_AUTH").isSome then
    .ok ((w.env "DG_AUTH").getD "", [], inputs0)
  else
    match (if optTruthy args.user then
             Except.ok (optStr args.user, ([] : List Event), inputs0)
           else promptLine "Username:" inputs0) with
    | .error e => .error e
    | .ok (usr, ev1, inputs1) =>
        match (if ¬ optTruthy args.password then promptLine "Password:" inputs1
               else .ok (optStr args.password, [], inputs1)) with
        | .error e => .error e
        | .ok (passwd, ev2, inputs2) =>
            let encodedAuth := b64encode (usr ++ ":" ++ passwd)
            if args.storeCreds then
              match w.env "SHELL" with
              | none => .error (.keyError "SHELL")
              | some shell =>
                  if strContains shell "zsh" then
                    let ev3 := [Event.print (.line
                        "Saving encoded credentials to DG_AUTH and to your zsh profile."),
                      Event.sysCmd ("echo 'export DG_AUTH=" ++ encodedAuth
                        ++ "' >> ~/.zshenv"),
                      Event.sysCmd ("export DG_AUTH=" ++ encodedAuth)]
                    let ev4 := if (w.env "DG_AUTH").isSome then ([] : List Event)
                      else [Event.print (.line
                        "We encountered an issue getting DG_AUTH into this session it was saved to your profile and will appear when you restart the terminal.")]
                    .ok (encodedAuth, ev1 ++ ev2 ++ ev3 ++ ev4, inputs2)
                  else if strContains shell "bash" then
                    .ok (encodedAuth, ev1 ++ ev2 ++
                      [Event.print (.line
                        "Saving encoded credentials to DG_AUTH and to your bash profile."),
                       Event.sysCmd ("echo 'export DG_AUTH=" ++ encodedAuth
                         ++ "' >> ~/.bash_profile"),
                       Event.sysCmd ("export DG_AUTH=" ++ encodedAuth)], inputs2)
                  else
                    .ok (encodedAuth, ev1 ++ ev2 ++
                      [Event.print (.line ("I'm not sure what your shell is. You can add DG_AUTH="
                        ++ encodedAuth ++ " to your environment variables"))], inputs2)
            else
              .ok (encodedAuth, ev1 ++ ev2, inputs2)

def digitChar (d : Nat) : Char := Char.ofNat (48 + d)

/-- Base-10 digits of `n`, least significant first, with explicit fuel so
that every definition in this development reduces in the kernel. -/
def natDigitsRev : Nat → Nat → List Nat
  | 0, _ => []
  | fuel + 1, n => if n = 0 then [] else n % 10 :: natDigitsRev fuel (n / 10)

def natChars (n : Nat) : List Char :=
  if n = 0 then ['0'] else ((natDigitsRev n n).reverse.map digitChar)

def padZeros (len : Nat) (ds : List Char) : List Char :=
  List.replicate (len - ds.length) '0' ++ ds

/-- Decimal rendering of the non-negative number `n / 10^e`: an integer
literal when `e = 0`, otherwise a literal with exactly `e` fractional
digits. -/
def unsignedChars (n : Nat) (e : Nat) : List Char :=
  if e = 0 then natChars n
  else
    let p := padZeros (e + 1) (natChars n)
    p.take (p.length - e) ++ '.' :: p.drop (p.length - e)

/-- Decimal rendering of the number `m / 10^e` (matching how `json.dumps`
serialises the decimal the value was parsed from). -/
def numChars (m : Int) (e : Nat) : List Char :=
  (if m < 0 then ['-'] else []) ++ unsignedChars m.natAbs e

def hexChar (d : Nat) : Char :=
  if d < 10 then Char.ofNat (48 + d) else Char.ofNat (87 + d)

/-- The escape `json.dumps` applies to one character of a string. -/
def escapeChar (c : Char) : List Char :=
  if c = '"' then ['\\', '"']
  else if c = '\\' then ['\\', '\\']
  else if c = '\n' then ['\\', 'n']
  else if c = '\r' then ['\\', 'r']
  else if c = '\t' then ['\\', 't']
  else if c.toNat = 8 then ['\\', 'b']
  else if c.toNat = 12 then ['\\', 'f']
  else if c.toNat < 32 then
    ['\\', 'u', '0', '0', hexChar (c.toNat / 16), hexChar (c.toNat % 16)]
  else [c]

def escChars (cs : List Char) : List Char := (cs.map escapeChar).flatten

mutual
/-- `json.dumps` with its default separators `", "` and `": "`, as a
character list. -/
def Json.dumpChars : Json → List Char
  | .null => 'n' :: ['u', 'l', 'l']
  | .bool true => 't' :: ['r', 'u', 'e']
  | .bool false => 'f' :: ['a', 'l', 's', 'e']
  | .num m e => numChars m e
  | .str s => '"' :: (escChars s.toList ++ ['"'])
  | .arr .nil => ['[', ']']
  | .arr (.cons x xs) => '[' :: (x.dumpChars ++ (JArr.dumpTail xs ++ [']']))
  | .obj .nil => ['{', '}']
  | .obj (.cons k v kvs) =>
      '{' :: ('"' :: (escChars k.toList ++ ['"', ':', ' ']
        ++ (v.dumpChars ++ (JObj.dumpTail kvs ++ ['}']))))
def JArr.dumpTail : JArr → List Char
  | .nil => []
  | .cons x xs => ',' :: ' ' :: (x.dumpChars ++ JArr.dumpTail xs)
def JObj.dumpTail : JObj → List Char
  | .nil => []
  | .cons k v kvs =>
      ',' :: ' ' :: ('"' :: (escChars k.toList ++ ['"', ':', ' ']
        ++ (v.dumpChars ++ JObj.dumpTail kvs)))
end

/-- `json.dumps(transcriptData)` (deepgram.py line 286). -/
def dumps (j : Json) : String := String.mk j.dumpChars

mutual
/-- Fuel needed by the parser for this value. -/
def Json.needV : Json → Nat
  | .null => 1
  | .bool _ => 1
  | .num _ _ => 1
  | .str _ => 1
  | .arr .nil => 2
  | .arr (.cons x xs) => 2 + max x.needV (JArr.needT xs)
  | .obj .nil => 2
  | .obj (.cons _ v kvs) => 2 + max v.needV (JObj.needT kvs)
def JArr.needT : JArr → Nat
  | .nil => 1
  | .cons x xs => 1 + max x.needV (JArr.needT xs)
def JObj.needT : JObj → Nat
  | .nil => 1
  | .cons _ v kvs => 1 + max v.needV (JObj.needT kvs)
end

def skipSpaces : List Char → List Char
  | [] => []
  | c :: cs =>
      if c = ' ' ∨ c = '\n' ∨ c = '\t' ∨ c = '\r' then skipSpaces cs else c :: cs

def hexVal (c : Char) : Option Nat :=
  if 48 ≤ c.toNat ∧ c.toNat ≤ 57 then some (c.toNat - 48)
  else if 97 ≤ c.toNat ∧ c.toNat ≤ 102 then some (c.toNat - 87)
  else if 65 ≤ c.toNat ∧ c.toNat ≤ 70 then some (c.toNat - 55)
  else none

/-- The body of a JSON string, up to the next unescaped `"` (undoing the
escapes the printer emits). -/
def parseStrChars : List Char → Option (List Char × List Char)
  | [] => none
  | c :: rest =>
      if c = '"' then some ([], rest)
      else if c = '\\' then
        match rest with
        | [] => none
        | esc :: rest1 =>
            if esc = '"' ∨ esc = '\\' ∨ esc = '/' then
              (parseStrChars rest1).map (fun p => (esc :: p.1, p.2))
            else if esc = 'n' then
              (parseStrChars rest1).map (fun p => ('\n' :: p.1, p.2))
            else if esc = 'r' then
              (parseStrChars rest1).map (fun p => ('\r' :: p.1, p.2))
            else if esc = 't' then
              (parseStrChars rest1).map (fun p => ('\t' :: p.1, p.2))
            else if esc = 'b' then
              (parseStrChars rest1).map (fun p => (Char.ofNat 8 :: p.1, p.2))
            else if esc = 'f' then
              (parseStrChars rest1).map (fun p => (Char.ofNat 12 :: p.1, p.2))
            else if esc = 'u' then
              match rest1 with
              | h1 :: h2 :: h3 :: h4 :: rest2 =>
                  match hexVal h1, hexVal h2, hexVal h3, hexVal h4 with
                  | some a, some b, some hc, some d =>
                      (parseStrChars rest2).map (fun p =>
                        (Char.ofNat (a * 4096 + b * 256 + hc * 16 + d) :: p.1, p.2))
                  | _, _, _, _ => none
              | _ => none
            else none
      else (parseStrChars rest).map (fun p => (c :: p.1, p.2))

def digitsToNat (ds : List Char) : Nat :=
  ds.foldl (fun acc c => acc * 10 + (c.toNat - 48)) 0

def spanDigits (cs : List Char) : List Char × List Char :=
  (cs.takeWhile Char.isDigit, cs.dropWhile Char.isDigit)

def parseUNum (cs : List Char) : Option ((Int × Nat) × List Char) :=
  let ds := (spanDigits cs).1
  let rest := (spanDigits cs).2
  if ds = [] then none
  else
    match rest with
    | '.' :: rest2 =>
        let fs := (spanDigits rest2).1
        let rest3 := (spanDigits rest2).2
        if fs = [] then none
        else some (((digitsToNat ds : Int) * (10 : Int) ^ fs.length
          + (digitsToNat fs : Int), fs.length), rest3)
    | _ => some (((digitsToNat ds : Int), 0), rest)

def parseNumC (cs : List Char) : Option (Json × List Char) :=
  match cs with
  | [] => none
  | c :: rest =>
      if c = '-' then (parseUNum rest).map (fun p => (Json.num (-p.1.1) p.1.2, p.2))
      else (parseUNum (c :: rest)).map (fun p => (Json.num p.1.1 p.1.2, p.2))

mutual
/-- A recursive-descent JSON parser (the embedding of `json.load`), with
explicit fuel so that it reduces in the kernel. -/
def parseVal : Nat → List Char → Option (Json × List Char)
  | 0, _ => none
  | fuel + 1, cs =>
      match skipSpaces cs with
      | [] => none
      | c :: rest =>
          if c = 'n' then
            match rest with
            | 'u' :: 'l' :: 'l' :: rest2 => some (.null, rest2)
            | _ => none
          else if c = 't' then
            match rest with
            | 'r' :: 'u' :: 'e' :: rest2 => some (.bool true, rest2)
            | _ => none
          else if c = 'f' then
            match rest with
            | 'a' :: 'l' :: 's' :: 'e' :: rest2 => some (.bool false, rest2)
            | _ => none
          else if c = '"' then
            (parseStrChars rest).map (fun p => (Json.str (String.mk p.1), p.2))
          else if c = '[' then parseArr fuel rest
          else if c = '{' then parseObj fuel rest
          else parseNumC (c :: rest)
def parseArr : Nat → List Char → Option (Json × List Char)
  | 0, _ => none
  | fuel + 1, cs =>
      match skipSpaces cs with
      | [] => none
      | c :: rest =>
          if c = ']' then some (.arr .nil, rest)
          else
            match parseVal fuel (c :: rest) with
            | none => none
            | some (v, rest2) =>
                match parseArrTail fuel rest2 with
                | none => none
                | some (vs, rest3) => some (.arr (.cons v vs), rest3)
def parseArrTail : Nat → List Char → Option (JArr × List Char)
  | 0, _ => none
  | fuel + 1, cs =>
      match skipSpaces cs with
      | [] => none
      | c :: rest =>
          if c = ']' then some (.nil, rest)
          else if c = ',' then
            match parseVal fuel rest with
            | none => none
            | some (v, rest2) =>
                match parseArrTail fuel rest2 with
                | none => none
                | some (vs, rest3) => some (.cons v vs, rest3)
          else none
def parseObj : Nat → List Char → Option (Json × List Char)
  | 0, _ => none
  | fuel + 1, cs =>
      match skipSpaces cs with
      | [] => none
      | c :: rest =>
          if c = '}' then some (.obj .nil, rest)
          else if c = '"' then
            match parseStrChars rest with
            | none => none
            | some (k, rest2) =>
                match skipSpaces rest2 with
                | [] => none
                | c2 :: rest3 =>
                    if c2 = ':' then
                      match parseVal fuel rest3 with
                      | none => none
                      | some (v, rest4) =>
                          match parseObjTail fuel rest4 with
                          | none => none
                          | some (kvs, rest5) =>
                              some (.obj (.cons (String.mk k) v kvs), rest5)
                    else none
          else none
def parseObjTail : Nat → List Char → Option (JObj × List Char)
  | 0, _ => none
  | fuel + 1, cs =>
      match skipSpaces cs with
      | [] => none
      | c :: rest =>
          if c = '}' then some (.nil, rest)
          else if c = ',' then
            match skipSpaces rest with
            | [] => none
            | c2 :: rest2 =>
                if c2 = '"' then
                  match parseStrChars rest2 with
                  | none => none
                  | some (k, rest3) =>
                      match skipSpaces rest3 with
                      | [] => none
                      | c3 :: rest4 =>
                          if c3 = ':' then
                            match parseVal fuel rest4 with
                            | none => none
                            | some (v, rest5) =>
                                match parseObjTail fuel rest5 with
                                | none => none
                                | some (kvs, rest6) =>
                                    some (.cons (String.mk k) v kvs, rest6)
                          else none
                else none
          else none
end

/-- `json.load`: parse a complete JSON document (trailing whitespace
allowed, anything else after the value refused). -/
def loads (s : String) : Option Json :=
  match parseVal (s.length + 1) s.toList with
  | some (j, rest) => if skipSpaces rest = [] then some j else none
  | none => none

/-- The first character (if any) is not a decimal digit. -/
def headNotDigit : List Char → Prop
  | [] => True
  | c :: _ => c.isDigit = false

/-- The input is exhausted or continues with a JSON delimiter, which is
what follows a printed value inside a document. -/
def delimB : List Char → Bool
  | [] => true
  | c :: _ => c = ',' ∨ c = ']' ∨ c = '}'

/-- `saveTranscript` (deepgram.py lines 283-287): write
`json.dumps(transcriptData)` into the output file.  Returns the updated
file system together with the write event. -/
def saveTranscript (files : String → Option String) (transcriptData : Json)
    (outputFileName : String) : (String → Option String) × Event :=
  (fun p => if p = outputFileName then some (dumps transcriptData) else files p,
   .fileWrite outputFileName (dumps transcriptData))

/-- `readLocalTranscript` (deepgram.py lines 290-295): open the file and
`json.load` it (IOError when missing, a decode error on malformed JSON). -/
def readLocalTranscript (files : String → Option String) (localTranscript : String) :
    Except Err Json :=
  match files localTranscript with
  | none => .error .ioError
  | some s =>
      match loads s with
      | some j => .ok j
      | none => .error .jsonError

/-- `os.path.join` (for the arguments this program passes). -/
def joinPath (a b : String) : String :=
  if b.toList.take 1 = ['/'] then b
  else if a = "" then b
  else if a.toList.reverse.take 1 = ['/'] then a ++ b
  else a ++ "/" ++ b

/-- The second component of `os.path.split`: everything after the last
path separator. -/
def baseName (p : String) : String :=
  String.mk ((p.toList.reverse.takeWhile (fun c => ¬ c = '/')).reverse)

/-- The output folder `main` resolves (deepgram.py lines 355-358). -/
def outputFolderOf (args : Config) : String :=
  if optTruthy args.output_folder then optStr args.output_folder else "./transcripts/"

/-- `getTranscipt` (deepgram.py lines 253-281): pick the content type and
payload (local file bytes, a URL JSON body, or a prompted URL), then issue
`POST /v2/listen?<query>` with the `Authorization` header and parse the
JSON response.  `creds` is the module-level global that `main` assigns
only in non-local runs; referencing it unset raises `NameError`.  The
payload is resolved (and any file opened or URL prompted) before the
headers reference `creds`, as in the source. -/
def getTranscipt (args : Config) (creds : Option String) (w : World)
    (inputs : List String) (fileFromDir : Option String) :
    Except Err (Json × List Event × List String) :=
  match
    ((if optTruthy args.input_file then
       match w.files (optStr args.input_file) with
       | some contents => Except.ok (contents, ([] : List Event), inputs)
       | none => .error .ioError
     else if optTruthy fileFromDir then
       match w.files (optStr fileFromDir) with
       | some contents => .ok (contents, [], inputs)
       | none => .error .ioError
     else if optTruthy args.url then
       .ok ("\x7b\"url\":\"" ++ optStr args.url ++ "\"\x7d", [], inputs)
     else
       match promptLine "Enter a URL of an audio file." inputs with
       | .error e => .error e
       | .ok (u, ev, rest) => .ok ("\x7b\"url\":\"" ++ u ++ "\"\x7d", ev, rest)) :
      Except Err (String × List Event × List String)) with
  | .error e => .error e
  | .ok (payload, ev1, inputs1) =>
      match creds with
      | none => .error (.nameError "creds")
      | some _ =>
          .ok (w.net (apiRequest args) payload,
            ev1 ++ [Event.netCall args.fqdn (apiRequest args) payload], inputs1)

/-- One iteration of the directory loop (deepgram.py lines 368-380):
read-and-project in local mode, skip when the output exists and `--keep`
is set, otherwise transcribe, save and project.  Returns the new file
system, the remaining inputs, the events of this iteration and the
exception aborting the run, if any. -/
def processDirFile (args : Config) (creds : Option String) (outputFolder : String)
    (w : World) (files : String → Option String) (inputs : List String)
    (file : String) :
    (String → Option String) × List String × List Event × Option Err :=
  let inputFileName := joinPath (optStr args.input_dir) file
  let outputFileName := joinPath outputFolder file ++ ".json"
  if args.localMode then
    let pr := Event.print (.line ("\nReading " ++ inputFileName ++ " from disk"))
    match readLocalTranscript files inputFileName with
    | .error e => (files, inputs, [pr], some e)
    | .ok j =>
        match parseTranscript j args with
        | .error e => (files, inputs, [pr], some e)
        | .ok (outs, _) => (files, inputs, pr :: outs.map .print, none)
  else if (files outputFileName).isSome ∧ args.keep then
    (files, inputs,
      [.print (.line "Transcript already exists for audio file, and --keep is set.")],
      none)
  else
    let pr := Event.print (.line ("\nProcessing: " ++ inputFileName))
    match getTranscipt args creds w inputs (some inputFileName) with
    | .error e => (files, inputs, [pr], some e)
    | .ok (outputData, ev, inputs2) =>
        let sv := saveTranscript files outputData outputFileName
        match parseTranscript outputData args with
        | .error e => (sv.1, inputs2, pr :: (ev ++ [sv.2]), some e)
        | .ok (outs, _) => (sv.1, inputs2, pr :: (ev ++ sv.2 :: outs.map .print), none)

/-- The directory loop itself, aborting at the first exception. -/
def dirLoop (args : Config) (creds : Option String) (outputFolder : String)
    (w : World) :
    List String → (String → Option String) → List String →
    (String → Option String) × List String × List Event × Option Err
  | [], files, inputs => (files, inputs, [], none)
  | f :: fs, files, inputs =>
      match processDirFile args creds outputFolder w files inputs f with
      | (files2, inputs2, ev, some e) => (files2, inputs2, ev, some e)
      | (files2, inputs2, ev, none) =>
          match dirLoop args creds outputFolder w fs files2 inputs2 with
          | (files3, inputs3, ev2, r) => (files3, inputs3, ev ++ ev2, r)

/-- The single-file branch of `main` (deepgram.py lines 382-391): note it
has no `--keep` check — a non-local run always transcribes and saves. -/
def fileBranch (args : Config) (creds : Option String) (outputFolder : String)
    (w : World) (files : String → Option String) (inputs : List String) :
    (String → Option String) × List String × List Event × Option Err :=
  if args.localMode then
    match readLocalTranscript files (optStr args.input_file) with
    | .error e => (files, inputs, [], some e)
    | .ok j =>
        match parseTranscript j args with
        | .error e => (files, inputs, [], some e)
        | .ok (outs, _) => (files, inputs, outs.map .print, none)
  else
    let pr := Event.print (.line ("\nProcessing: " ++ optStr args.input_file))
    let inputFileName := baseName (optStr args.input_file)
    let outputFileName := joinPath outputFolder inputFileName ++ ".json"
    match getTranscipt args creds w inputs none with
    | .error e => (files, inputs, [pr], some e)
    | .ok (outputData, ev, inputs2) =>
        let sv := saveTranscript files outputData outputFileName
        match parseTranscript outputData args with
        | .error e => (sv.1, inputs2, pr :: (ev ++ [sv.2]), some e)
        | .ok (outs, _) => (sv.1, inputs2, pr :: (ev ++ sv.2 :: outs.map .print), none)

/-- The URL branch of `main` (deepgram.py lines 393-397).  After the
Output Record is printed, line 395 reads `arg.output_folder` — the name
`arg` is undefined, so the branch always raises `NameError` before any
save can happen. -/
def urlBranch (args : Config) (creds : Option String) (w : World)
    (files : String → Option String) (inputs : List String) :
    (String → Option String) × List String × List Event × Option Err :=
  match getTranscipt args creds w inputs none with
  | .error e => (files, inputs, [], some e)
  | .ok (outputData, ev, inputs2) =>
      match parseTranscript outputData args with
      | .error e => (files, inputs2, ev, some e)
      | .ok (outs, _) =>
          (files, inputs2, ev ++ outs.map .print, some (.nameError "arg"))

/-- The result of a run: the events in order, the final file system, and
the unhandled exception, if one was raised. -/
structure RunResult where
  events : List Event
  files : String → Option String
  err : Option Err

/-- `main` (deepgram.py lines 342-397): resolve the output folder, create
it if absent, resolve credentials unless `--local`, then run the
directory, single-file and URL branches in order, stopping at the first
unhandled exception. -/
def runMain (args : Config) (w : World) (inputs : List String) : RunResult :=
  let outputFolder := outputFolderOf args
  let mkEv : List Event := if w.isDir outputFolder then [] else [.mkdir outputFolder]
  match (if args.localMode then
           Except.ok ((none : Option String), ([] : List Event), inputs)
         else
           match parseCredentials args w inputs with
           | .error e => .error e
           | .ok (c, ev, inp) => .ok (some c, ev, inp)) with
  | .error e => ⟨mkEv, w.files, some e⟩
  | .ok (creds, credEv, inputs1) =>
      match (if optTruthy args.input_dir then
               dirLoop args creds outputFolder w (w.listDir (optStr args.input_dir))
                 w.files inputs1
             else (w.files, inputs1, [], none)) with
      | (files2, inputs2, dirEv, some e) =>
          ⟨mkEv ++ credEv ++ dirEv, files2, some e⟩
      | (files2, inputs2, dirEv, none) =>
          match (if optTruthy args.input_file then
                   fileBranch args creds outputFolder w files2 inputs2
                 else (files2, inputs2, [], none)) with
          | (files3, inputs3, fileEv, some e) =>
              ⟨mkEv ++ credEv ++ dirEv ++ fileEv, files3, some e⟩
          | (files3, inputs3, fileEv, none) =>
              if optTruthy args.url then
                match urlBranch args creds w files3 inputs3 with
                | (files4, _, urlEv, r) =>
                    ⟨mkEv ++ credEv ++ dirEv ++ fileEv ++ urlEv, files4, r⟩
              else ⟨mkEv ++ credEv ++ dirEv ++ fileEv, files3, none⟩

/-- Claim C1 as stated: with `--keep` set and the output file already
present, the run makes no network call for that input and leaves the file
byte-identical — in both the `--dir` iteration and the single `--file`
mode. -/
def claimC1Statement : Prop :=
  (∀ (args : Config) (creds : Option String) (outputFolder : String) (w : World)
     (files : String → Option String) (inputs : List String) (file : String),
     args.localMode = false → args.keep = true →
     (files (joinPath outputFolder file ++ ".json")).isSome = true →
     (processDirFile args creds outputFolder w files inputs file).1 = files ∧
     (processDirFile args creds outputFolder w files inputs file).2.2.1.all
       (fun e => ! e.isNet) = true) ∧
  (∀ (args : Config) (w : World) (inputs : List String),
     args.localMode = false → args.keep = true →
     args.input_dir = none → args.url = none →
     optTruthy args.input_file = true →
     ((w.files (joinPath (outputFolderOf args)
         (baseName (optStr args.input_file)) ++ ".json")).isSome = true) →
     ((runMain args w inputs).events.all (fun e => ! e.isNet) = true) ∧
     (runMain args w inputs).files (joinPath (outputFolderOf args)
         (baseName (optStr args.input_file)) ++ ".json")
       = w.files (joinPath (outputFolderOf args)
         (baseName (optStr args.input_file)) ++ ".json"))

/-- Claim C2 as stated: a run whose response lacks the `search` field,
with `--search` requested and `--verbose` unset and everything else in
order, produces no Output Record, writes no transcript file to disk, and
prints a diagnostic. -/
def claimC2Statement : Prop :=
  ∀ (args : Config) (w : World) (inputs : List String) (tr : Json) (e : Err)
    (v : String),
    args.verbose = false → args.search ≠ [] →
    args.localMode = false → args.input_dir = none → args.url = none →
    optTruthy args.input_file = true →
    args.storeCreds = false → w.env "DG_AUTH" = some v →
    ((w.files (optStr args.input_file)).isSome = true) →
    (∀ target payload, transcriptPath (w.net target payload) = .ok tr) →
    (∀ target payload, searchField (w.net target payload) = .error e) →
    ((runMain args w inputs).events.all (fun ev => ! ev.isWrite) = true) ∧
    ((runMain args w inputs).events.all (fun ev => ! ev.isRecord) = true) ∧
    (Event.print (.line "No search data found for transcript.")
      ∈ (runMain args w inputs).events)

/-- A configuration requesting a search over a single local file. -/
def sampleArgsC2 : Config := {input_file := some "b.wav", search := ["bar"]}

/-- A world whose file system holds the requested audio file and whose
service answers every request with a response lacking the `search`
field. -/
def sampleWorldC2 : World :=
  ⟨fun p => if p = "b.wav" then some "AUDIO" else none,
   fun _ => true, fun _ => [],
   fun k => if k = "DG_AUTH" then some "TOK2" else none,
   fun _ _ => sampleRespNoSearch "hey"⟩

/-- A configuration naming only a remote audio URL. -/
def sampleArgsC9 : Config := {url := some "http://x/a.wav"}

/-- A world whose service answers every request with a plain transcript
response. -/
def sampleWorldC9 : World :=
  ⟨fun _ => none, fun _ => true, fun _ => [],
   fun k => if k = "DG_AUTH" then some "TOK3" else none,
   fun _ _ => sampleRespNoSearch "yo"⟩

/-! ### Theorems -/

theorem ampJoin_append (xs ys : List String) :
    ampJoin (xs ++ ys) = ampJoin xs ++ ampJoin ys := by
  induction xs with
  | nil => simp [ampJoin]
  | cons x xs ih => simp [ampJoin, ih, String.append_assoc]

theorem mergeQM (X : String) : "?" ++ ("model=" ++ X) = "?model=" ++ X := by
  rw [← String.append_assoc]; exact congrArg (fun s => s ++ X) (by decide)

theorem mergeQL (X : String) : "?" ++ ("language=" ++ X) = "?language=" ++ X := by
  rw [← String.append_assoc]; exact congrArg (fun s => s ++ X) (by decide)

theorem mergeAL (X : String) : "&" ++ ("language=" ++ X) = "&language=" ++ X := by
  rw [← String.append_assoc]; exact congrArg (fun s => s ++ X) (by decide)

theorem mergeAP (X : String) :
    "&" ++ ("punctuate=true" ++ X) = "&punctuate=true" ++ X := by
  rw [← String.append_assoc]; exact congrArg (fun s => s ++ X) (by decide)

theorem mergeAR (X : String) : "&" ++ ("redact=" ++ X) = "&redact=" ++ X := by
  rw [← String.append_assoc]; exact congrArg (fun s => s ++ X) (by decide)

theorem mergeAS (X : String) : "&" ++ ("search=" ++ X) = "&search=" ++ X := by
  rw [← String.append_assoc]; exact congrArg (fun s => s ++ X) (by decide)

theorem mergePR (X : String) :
    "&punctuate=true" ++ ("&redact=" ++ X) = "&punctuate=true&redact=" ++ X := by
  rw [← String.append_assoc]; exact congrArg (fun s => s ++ X) (by decide)

theorem mergePS (X : String) :
    "&punctuate=true" ++ ("&search=" ++ X) = "&punctuate=true&search=" ++ X := by
  rw [← String.append_assoc]; exact congrArg (fun s => s ++ X) (by decide)

theorem mergePA (X : String) :
    "&punctuate=true" ++ ("&" ++ X) = "&punctuate=true&" ++ X := by
  rw [← String.append_assoc]; exact congrArg (fun s => s ++ X) (by decide)

theorem search_foldl (l : List String) (a : String) :
    l.foldl (fun acc s => acc ++ ("&search=" ++ s)) a
      = a ++ ampJoin (l.map (fun s => "search=" ++ s)) := by
  induction l generalizing a with
  | nil => simp [ampJoin]
  | cons x xs ih =>
      simp [List.foldl, ih, ampJoin, mergeAS, String.append_assoc]

/-- The Query Builder agrees with the spec's description whenever the
language option is nonempty (argparse guarantees it is one of the fixed
nonempty language codes). -/
theorem parseQuery_eq_specQuery (args : Config) (h : args.language ≠ "") :
    parseQuery args = specQuery args := by
  unfold parseQuery specQuery specQueryParts
  by_cases hm : optTruthy args.model = true <;>
  by_cases hp : args.punctuate = true <;>
  by_cases hr : optTruthy args.redact = true <;>
  by_cases hs : args.search = [] <;>
  by_cases hq : optTruthy args.params = true <;>
  simp [hm, hp, hr, hs, hq, h, joinParts, ampJoin, ampJoin_append, search_foldl,
    String.append_assoc, String.append_empty, String.empty_append,
    mergeQM, mergeQL, mergeAL, mergeAP, mergeAR, mergeAS, mergePR, mergePS, mergePA]

/-- C6: the Query Builder is a pure function of the configuration that
appends the flags in the fixed order model, language, punctuate, redact,
search terms, raw parameters, joined by `&` with `?` as the first
separator (formalised as agreement with `specQuery`, stated for the
nonempty language codes argparse admits); in particular
`--model general --language fr` produces `?model=general&language=fr`
exactly. -/
theorem C6_query_builder :
    (∀ args : Config, args.language ≠ "" → parseQuery args = specQuery args) ∧
    parseQuery { model := some "general", language := "fr" }
      = "?model=general&language=fr" :=
  ⟨fun args h => parseQuery_eq_specQuery args h, by decide⟩

theorem C6_witness :
    (({ model := some "general", language := "fr" } : Config).language ≠ "") ∧
    parseQuery { model := some "general", language := "fr" }
      = specQuery { model := some "general", language := "fr" } :=
  ⟨by decide, C6_query_builder.1 { model := some "general", language := "fr" } (by decide)⟩

/-- C3 (counterexample): the claim that the request target is `/v2/listen`
followed by exactly one `?` and the joined `key=value` pairs is false: with
the default configuration the code produces `/v2/listen??language=en-US`,
with two `?` characters. -/
theorem C3_counterexample : ¬ claimC3Statement := by
  intro h
  exact absurd (h {}) (by decide)

/-- C3 (amended): the request target is the literal path `/v2/listen`
followed by two `?` characters and then the `key=value` pairs produced by
the Query Builder, because line 275 prepends `"/v2/listen?"` to a query
string that itself already begins with `?`. -/
theorem C3_request_target (args : Config) (h : args.language ≠ "") :
    apiRequest args = "/v2/listen??" ++ joinParts (specQueryParts args) := by
  have hne : specQueryParts args ≠ [] := by
    simp [specQueryParts, h]
  unfold apiRequest
  rw [parseQuery_eq_specQuery args h]
  unfold specQuery
  rw [if_neg hne, ← String.append_assoc]
  exact congrArg (fun s => s ++ joinParts (specQueryParts args)) (by decide)

theorem C3_witness :
    (({} : Config).language ≠ "") ∧
    apiRequest {} = "/v2/listen??" ++ joinParts (specQueryParts {}) :=
  ⟨by decide, C3_request_target {} (by decide)⟩

/-- C5: with `--verbose` set, the Output Record returned by the Result
Projector is the input response object itself, regardless of any other
flag (deepgram.py lines 307-308). -/
theorem C5_verbose_identity (q : Json) (args : Config) (h : args.verbose = true) :
    parseTranscript q args = .ok ([.record q], some q) := by
  simp [parseTranscript, h]

theorem C5_witness :
    (({ verbose := true } : Config).verbose = true) ∧
    parseTranscript .null { verbose := true } = .ok ([.record .null], some .null) :=
  ⟨rfl, C5_verbose_identity .null { verbose := true } rfl⟩

theorem searchLoop_zero (s : List String) (e : Nat) :
    ∀ (groups : JArr) (acc : JObj),
      searchLoop s (some ⟨0, e⟩) groups acc = searchLoop s none groups acc
  | .nil, _ => rfl
  | .cons g rest, acc => by
      simp only [searchLoop, floatTruthy]
      cases hgq : getItem g "query" with
      | error err => rfl
      | ok q =>
          cases q with
          | str w =>
              by_cases hw : w ∈ s
              · simp [hw, floatTruthy, searchLoop_zero s e rest]
              · simp [hw, searchLoop_zero s e rest]
          | null => exact searchLoop_zero s e rest acc
          | bool b => exact searchLoop_zero s e rest acc
          | num m me => exact searchLoop_zero s e rest acc
          | arr xs => exact searchLoop_zero s e rest acc
          | obj kvs => exact searchLoop_zero s e rest acc

/-- C10: a `--search-threshold` of exactly `0.0` is indistinguishable from
an unset threshold: the projector behaves identically in the two
configurations (so no confidence filtering happens and matching terms keep
their full hit groups), because `0.0` is falsy in the check at line 324. -/
theorem C10_zero_threshold (q : Json) (args : Config) (e : Nat) :
    parseTranscript q { args with search_threshold := some ⟨0, e⟩ }
      = parseTranscript q { args with search_threshold := none } := by
  unfold parseTranscript
  by_cases hv : args.verbose = true
  · simp [hv]
  · by_cases hsr : args.search = []
    · simp [hv, hsr]
    · simp only [hv, hsr]
      cases htr : transcriptPath q with
      | error err => simp
      | ok t =>
          cases hsf : searchField q with
          | error err => simp
          | ok sv =>
              by_cases hall : args.search = ["all"]
              · simp [hall]
              · cases sv <;> simp [hall, searchLoop_zero]

theorem JObj.lookup_insert (k : String) (v : Json) (k' : String) :
    ∀ o : JObj, (o.insert k v).lookup k' = if k = k' then some v else o.lookup k'
  | .nil => by
      by_cases h : k = k' <;> simp [JObj.insert, JObj.lookup, h]
  | .cons k0 v0 rest => by
      by_cases h0 : k0 = k
      · subst h0
        by_cases h1 : k0 = k' <;> simp [JObj.insert, JObj.lookup, h1]
      · by_cases h1 : k0 = k'
        · subst h1
          have hk : ¬ k = k0 := fun hh => h0 hh.symm
          simp [JObj.insert, JObj.lookup, h0, hk]
        · simp [JObj.insert, JObj.lookup, h0, h1, JObj.lookup_insert k v k' rest]

theorem hitsLoop_wf (t : PyFloat) :
    ∀ hs : JArr, hitsWF hs = true → hitsLoop t hs = .ok (JArr.filter (confGE t) hs)
  | .nil, _ => rfl
  | .cons h hs, hwf => by
      simp only [hitsWF, Bool.and_eq_true] at hwf
      obtain ⟨hc, hrest⟩ := hwf
      cases hch : getItem h "confidence" with
      | error e => rw [hch] at hc; simp at hc
      | ok cv =>
          cases cv with
          | num m e =>
              simp [hitsLoop, hch, pyGEfloat, hitsLoop_wf t hs hrest, JArr.filter,
                confGE]
          | null => rw [hch] at hc; simp at hc
          | bool b => rw [hch] at hc; simp at hc
          | str s => rw [hch] at hc; simp at hc
          | arr xs => rw [hch] at hc; simp at hc
          | obj kvs => rw [hch] at hc; simp at hc

theorem searchLoop_lookup (search : List String) (thr : Option PyFloat) (term : String) :
    ∀ (groups : JArr) (acc : JObj), groupsWF search thr groups = true →
      ∃ rd, searchLoop search thr groups acc = .ok rd ∧
        rd.lookup term = (match lastAssign search thr term groups with
          | some v => some v
          | none => acc.lookup term)
  | .nil, acc, _ => ⟨acc, rfl, by simp [lastAssign]⟩
  | .cons g gs, acc, hwf => by
      simp only [groupsWF, Bool.and_eq_true] at hwf
      obtain ⟨hg, hgs⟩ := hwf
      cases hq : getItem g "query" with
      | error e => simp [groupWF, hq] at hg
      | ok qv =>
          cases qv with
          | str w =>
              by_cases hw : w ∈ search
              · by_cases ht : floatTruthy thr = true
                · simp only [groupWF, hq, hw, ht, if_true] at hg
                  cases hh : getItem g "hits" with
                  | error e => rw [hh] at hg; simp at hg
                  | ok hv =>
                      cases hv with
                      | arr hs =>
                          rw [hh] at hg
                          have hloop := hitsLoop_wf (thr.getD ⟨0, 0⟩) hs hg
                          by_cases hk :
                              (JArr.filter (confGE (thr.getD ⟨0, 0⟩)) hs).length > 0
                          · obtain ⟨rd, hrun, hlook⟩ := searchLoop_lookup search thr term gs
                              (acc.insert w (.obj (.cons "hits"
                                (.arr (JArr.filter (confGE (thr.getD ⟨0, 0⟩)) hs)) .nil))) hgs
                            refine ⟨rd, ?_, ?_⟩
                            · simp [searchLoop, hq, hw, ht, hh, hloop, hk, hrun]
                            · rw [hlook]
                              cases hla : lastAssign search thr term gs <;>
                                simp [lastAssign, hla, assignOf, hq, hw, ht, hh, hk,
                                  JObj.lookup_insert] <;>
                              by_cases hwt : w = term <;> simp [hwt]
                          · obtain ⟨rd, hrun, hlook⟩ :=
                              searchLoop_lookup search thr term gs acc hgs
                            refine ⟨rd, ?_, ?_⟩
                            · simp [searchLoop, hq, hw, ht, hh, hloop, hk, hrun]
                            · rw [hlook]
                              cases hla : lastAssign search thr term gs <;>
                                simp [lastAssign, hla, assignOf, hq, hw, ht, hh, hk]
                      | null => rw [hh] at hg; simp at hg
                      | bool b => rw [hh] at hg; simp at hg
                      | num m e => rw [hh] at hg; simp at hg
                      | str s => rw [hh] at hg; simp at hg
                      | obj kvs => rw [hh] at hg; simp at hg
                · obtain ⟨rd, hrun, hlook⟩ :=
                    searchLoop_lookup search thr term gs (acc.insert w g) hgs
                  refine ⟨rd, ?_, ?_⟩
                  · simp [searchLoop, hq, hw, ht, hrun]
                  · rw [hlook]
                    cases hla : lastAssign search thr term gs <;>
                      simp [lastAssign, hla, assignOf, hq, hw, ht, JObj.lookup_insert] <;>
                    by_cases hwt : w = term <;> simp [hwt]
              · obtain ⟨rd, hrun, hlook⟩ := searchLoop_lookup search thr term gs acc hgs
                refine ⟨rd, ?_, ?_⟩
                · simp [searchLoop, hq, hw, hrun]
                · rw [hlook]
                  cases hla : lastAssign search thr term gs <;>
                    simp [lastAssign, hla, assignOf, hq, hw]
          | null =>
              obtain ⟨rd, hrun, hlook⟩ := searchLoop_lookup search thr term gs acc hgs
              exact ⟨rd, by simp [searchLoop, hq, hrun], by
                rw [hlook]
                cases hla : lastAssign search thr term gs <;>
                  simp [lastAssign, hla, assignOf, hq]⟩
          | bool b =>
              obtain ⟨rd, hrun, hlook⟩ := searchLoop_lookup search thr term gs acc hgs
              exact ⟨rd, by simp [searchLoop, hq, hrun], by
                rw [hlook]
                cases hla : lastAssign search thr term gs <;>
                  simp [lastAssign, hla, assignOf, hq]⟩
          | num m e =>
              obtain ⟨rd, hrun, hlook⟩ := searchLoop_lookup search thr term gs acc hgs
              exact ⟨rd, by simp [searchLoop, hq, hrun], by
                rw [hlook]
                cases hla : lastAssign search thr term gs <;>
                  simp [lastAssign, hla, assignOf, hq]⟩
          | arr xs =>
              obtain ⟨rd, hrun, hlook⟩ := searchLoop_lookup search thr term gs acc hgs
              exact ⟨rd, by simp [searchLoop, hq, hrun], by
                rw [hlook]
                cases hla : lastAssign search thr term gs <;>
                  simp [lastAssign, hla, assignOf, hq]⟩
          | obj kvs =>
              obtain ⟨rd, hrun, hlook⟩ := searchLoop_lookup search thr term gs acc hgs
              exact ⟨rd, by simp [searchLoop, hq, hrun], by
                rw [hlook]
                cases hla : lastAssign search thr term gs <;>
                  simp [lastAssign, hla, assignOf, hq]⟩

theorem assignOf_not_query (search : List String) (thr : Option PyFloat)
    (term : String) (g : Json) (h : queryIs term g = false) :
    assignOf search thr term g = none := by
  simp only [assignOf]
  cases hq : getItem g "query" with
  | error e => rfl
  | ok qv =>
      cases qv with
      | str w =>
          simp only [queryIs, hq] at h
          simp at h
          simp [h]
      | null => rfl
      | bool b => rfl
      | num m e => rfl
      | arr xs => rfl
      | obj kvs => rfl

theorem queryIs_ok (term : String) (g : Json) (h : queryIs term g = true) :
    getItem g "query" = .ok (.str term) := by
  simp only [queryIs] at h
  cases hq : getItem g "query" with
  | error e => rw [hq] at h; simp at h
  | ok qv =>
      cases qv with
      | str w => rw [hq] at h; simp at h; rw [h]
      | null => rw [hq] at h; simp at h
      | bool b => rw [hq] at h; simp at h
      | num m e => rw [hq] at h; simp at h
      | arr xs => rw [hq] at h; simp at h
      | obj kvs => rw [hq] at h; simp at h

theorem lastAssign_none (search : List String) (thr : Option PyFloat) (term : String) :
    ∀ groups : JArr, (∀ g' ∈ groups.toList, queryIs term g' = false) →
      lastAssign search thr term groups = none
  | .nil, _ => rfl
  | .cons g gs, h => by
      have h1 : queryIs term g = false := h g (by simp [JArr.toList])
      have h2 : ∀ g' ∈ gs.toList, queryIs term g' = false := fun g' hg' =>
        h g' (by simp [JArr.toList, hg'])
      simp [lastAssign, lastAssign_none search thr term gs h2,
        assignOf_not_query search thr term g h1]

theorem lastAssign_unique (search : List String) (thr : Option PyFloat) (term : String) :
    ∀ (groups : JArr) (g : Json) (l1 l2 : List Json),
      groups.toList = l1 ++ g :: l2 →
      (∀ g' ∈ l1, queryIs term g' = false) →
      (∀ g' ∈ l2, queryIs term g' = false) →
      lastAssign search thr term groups = assignOf search thr term g
  | .nil, g, l1, l2, h, _, _ => by
      simp [JArr.toList] at h
  | .cons g0 gs, g, l1, l2, h, h1, h2 => by
      simp only [JArr.toList] at h
      cases l1 with
      | nil =>
          simp only [List.nil_append] at h
          injection h with hg0 hgs
          have hnone : lastAssign search thr term gs = none :=
            lastAssign_none search thr term gs (fun g' hg' => h2 g' (hgs ▸ hg'))
          simp [lastAssign, hnone, hg0]
      | cons x l1' =>
          simp only [List.cons_append] at h
          injection h with hg0 hgs
          have hx : queryIs term g0 = false := by
            rw [hg0]; exact h1 x (by simp)
          have IH := lastAssign_unique search thr term gs g l1' l2 hgs
            (fun g' hg' => h1 g' (by simp [hg'])) h2
          cases ha : assignOf search thr term g with
          | none =>
              rw [ha] at IH
              simp [lastAssign, IH, assignOf_not_query search thr term g0 hx, ha]
          | some v =>
              rw [ha] at IH
              simp [lastAssign, IH, ha]

/-- In the search branch (no `all` sentinel), the projector returns the
object built by the loop, and the value at any key is the last assignment
the loop made to it (falling back to the initial transcript entry). -/
theorem parseTranscript_search (queryData : Json) (args : Config) (tr : Json)
    (groups : JArr)
    (hv : args.verbose = false) (hs : args.search ≠ []) (hall : args.search ≠ ["all"])
    (htr : transcriptPath queryData = .ok tr)
    (hsf : searchField queryData = .ok (.arr groups))
    (hwf : groupsWF args.search args.search_threshold groups = true) :
    ∃ rd, parseTranscript queryData args = .ok ([.record (.obj rd)], some (.obj rd)) ∧
      ∀ term : String,
        rd.lookup term = (match lastAssign args.search args.search_threshold term groups with
          | some v => some v
          | none => JObj.lookup (JObj.insert .nil "transcript" tr) term) := by
  obtain ⟨rd, hrun, _⟩ := searchLoop_lookup args.search args.search_threshold ""
    groups (JObj.insert .nil "transcript" tr) hwf
  refine ⟨rd, ?_, ?_⟩
  · simp [parseTranscript, hv, hs, hall, htr, hsf, hrun]
  · intro term
    obtain ⟨rd2, hrun2, hlook2⟩ := searchLoop_lookup args.search args.search_threshold
      term groups (JObj.insert .nil "transcript" tr) hwf
    rw [hrun] at hrun2
    injection hrun2 with he
    rw [he]
    exact hlook2

/-- When the response lacks the `search` field (but has the transcript
path), the projector prints the diagnostic and returns nothing
(deepgram.py lines 313-317). -/
theorem parseTranscript_no_search (queryData : Json) (args : Config) (tr : Json)
    (e : Err) (hv : args.verbose = false) (hs : args.search ≠ [])
    (htr : transcriptPath queryData = .ok tr)
    (hsf : searchField queryData = .error e) :
    parseTranscript queryData args
      = .ok ([.line "No search data found for transcript."], none) := by
  simp [parseTranscript, hv, hs, htr, hsf]

/-- C4 (counterexample): the claim fails at threshold `0.0`: with
`--search foo --search-threshold 0.0` and a present group for `foo` whose
hit list is empty, the filtered set is empty, so the claim says the term
is omitted; the code's truthiness check treats `0.0` as unset and includes
the full (empty) hit group under key `foo`. -/
theorem C4_counterexample : ¬ claimC4Statement := by
  intro h
  have hc := h (sampleResp "hi" (.cons (sampleGroup "foo" .nil) .nil))
      { search := ["foo"], search_threshold := some ⟨0, 1⟩ }
      ⟨0, 1⟩ (.str "hi") (.cons (sampleGroup "foo" .nil) .nil)
      "foo" (sampleGroup "foo" .nil) .nil [] []
      rfl (by decide) (by decide) (by decide) (by decide)
      (by decide) (by decide) (by decide) (by decide)
      (by simp) (by simp) (by decide) (by decide)
      [.record (.obj (.cons "transcript" (.str "hi")
        (.cons "foo" (sampleGroup "foo" .nil) .nil)))]
      (.cons "transcript" (.str "hi") (.cons "foo" (sampleGroup "foo" .nil) .nil))
      (by decide)
  have hbad := hc.1 rfl
  exact absurd hbad (by decide)

/-- C4 (amended): for every configured *truthy* (nonzero) threshold `t`
and requested term whose unique group is present, the returned hit group
holds exactly the hits with confidence `>= t` and the term is omitted when
that set is empty; with no threshold the full group is included
unconditionally.  (A threshold of exactly `0.0` instead behaves as unset —
see the counterexample and C10.) -/
theorem C4_threshold_filtering :
    (∀ (queryData : Json) (args : Config) (t : PyFloat) (tr : Json) (groups : JArr)
      (term : String) (g : Json) (hits : JArr) (l1 l2 : List Json),
      args.verbose = false → args.search ≠ [] → args.search ≠ ["all"] →
      term ∈ args.search → term ≠ "transcript" →
      transcriptPath queryData = .ok tr →
      searchField queryData = .ok (.arr groups) →
      groupsWF args.search args.search_threshold groups = true →
      groups.toList = l1 ++ g :: l2 →
      (∀ g' ∈ l1, queryIs term g' = false) →
      (∀ g' ∈ l2, queryIs term g' = false) →
      queryIs term g = true →
      getItem g "hits" = .ok (.arr hits) →
      args.search_threshold = some t → t.mant ≠ 0 →
      ∃ rd, parseTranscript queryData args = .ok ([.record (.obj rd)], some (.obj rd)) ∧
        rd.lookup term =
          (if (JArr.filter (confGE t) hits).length > 0 then
            some (.obj (.cons "hits" (.arr (JArr.filter (confGE t) hits)) .nil))
          else none)) ∧
    (∀ (queryData : Json) (args : Config) (tr : Json) (groups : JArr)
      (term : String) (g : Json) (l1 l2 : List Json),
      args.verbose = false → args.search ≠ [] → args.search ≠ ["all"] →
      term ∈ args.search → term ≠ "transcript" →
      transcriptPath queryData = .ok tr →
      searchField queryData = .ok (.arr groups) →
      groupsWF args.search args.search_threshold groups = true →
      groups.toList = l1 ++ g :: l2 →
      (∀ g' ∈ l1, queryIs term g' = false) →
      (∀ g' ∈ l2, queryIs term g' = false) →
      queryIs term g = true →
      args.search_threshold = none →
      ∃ rd, parseTranscript queryData args = .ok ([.record (.obj rd)], some (.obj rd)) ∧
        rd.lookup term = some g) := by
  constructor
  · intro queryData args t tr groups term g hits l1 l2 hv hs hall hmem hne htr hsf hwf
      hsplit hl1 hl2 hqis hhits hthr ht
    obtain ⟨rd, hp, hlk⟩ := parseTranscript_search queryData args tr groups hv hs hall
      htr hsf hwf
    refine ⟨rd, hp, ?_⟩
    rw [hlk term, lastAssign_unique args.search args.search_threshold term groups g
      l1 l2 hsplit hl1 hl2]
    have hq := queryIs_ok term g hqis
    have hne2 : "transcript" ≠ term := fun hh => hne hh.symm
    by_cases hk : (JArr.filter (confGE t) hits).length > 0
    · simp [assignOf, hq, hthr, hmem, floatTruthy, ht, hhits, hk]
    · simp [assignOf, hq, hthr, hmem, floatTruthy, ht, hhits, hk, JObj.insert,
        JObj.lookup, hne2]
  · intro queryData args tr groups term g l1 l2 hv hs hall hmem hne htr hsf hwf
      hsplit hl1 hl2 hqis hthr
    obtain ⟨rd, hp, hlk⟩ := parseTranscript_search queryData args tr groups hv hs hall
      htr hsf hwf
    refine ⟨rd, hp, ?_⟩
    rw [hlk term, lastAssign_unique args.search args.search_threshold term groups g
      l1 l2 hsplit hl1 hl2]
    have hq := queryIs_ok term g hqis
    simp [assignOf, hq, hthr, hmem, floatTruthy]

theorem C4_witness :
    (({ search := ["foo"], search_threshold := some ⟨5, 1⟩ } : Config).verbose = false) ∧
    (∃ rd, parseTranscript
        (sampleResp "hi" (.cons (sampleGroup "foo"
          (.cons (sampleHit 9 1) (.cons (sampleHit 2 1) .nil))) .nil))
        { search := ["foo"], search_threshold := some ⟨5, 1⟩ }
        = .ok ([.record (.obj rd)], some (.obj rd)) ∧
      rd.lookup "foo" =
        (if (JArr.filter (confGE ⟨5, 1⟩)
            (.cons (sampleHit 9 1) (.cons (sampleHit 2 1) .nil))).length > 0 then
          some (.obj (.cons "hits" (.arr (JArr.filter (confGE ⟨5, 1⟩)
            (.cons (sampleHit 9 1) (.cons (sampleHit 2 1) .nil)))) .nil))
        else none)) :=
  ⟨rfl, C4_threshold_filtering.1
    (sampleResp "hi" (.cons (sampleGroup "foo"
      (.cons (sampleHit 9 1) (.cons (sampleHit 2 1) .nil))) .nil))
    { search := ["foo"], search_threshold := some ⟨5, 1⟩ }
    ⟨5, 1⟩ (.str "hi")
    (.cons (sampleGroup "foo" (.cons (sampleHit 9 1) (.cons (sampleHit 2 1) .nil))) .nil)
    "foo" (sampleGroup "foo" (.cons (sampleHit 9 1) (.cons (sampleHit 2 1) .nil)))
    (.cons (sampleHit 9 1) (.cons (sampleHit 2 1) .nil)) [] []
    rfl (by decide) (by decide) (by decide) (by decide) (by decide) (by decide)
    (by decide) (by decide) (by simp) (by simp) (by decide) (by decide) rfl (by decide)⟩

/-! ### JSON codec roundtrip: digits and numbers -/

theorem digitChar_toNat (d : Nat) (h : d < 10) : (digitChar d).toNat = 48 + d := by
  unfold digitChar
  interval_cases d <;> decide

theorem digitChar_isDigit (d : Nat) (h : d < 10) : (digitChar d).isDigit = true := by
  unfold digitChar
  interval_cases d <;> decide

theorem natDigitsRev_eq : ∀ fuel n : Nat, n ≤ fuel → natDigitsRev fuel n = Nat.digits 10 n := by
  intro fuel
  induction fuel with
  | zero =>
      intro n h
      interval_cases n
      simp [natDigitsRev]
  | succ f ih =>
      intro n h
      by_cases h0 : n = 0
      · subst h0; simp [natDigitsRev]
      · have hdiv : n / 10 ≤ f := by
          have := Nat.div_lt_self (Nat.pos_of_ne_zero h0) (by norm_num : 1 < 10)
          omega
        rw [natDigitsRev, if_neg h0, ih (n / 10) hdiv,
          Nat.digits_def' (by norm_num : 1 < 10) (Nat.pos_of_ne_zero h0)]

theorem digitsToNat_go (B : List Char) : ∀ acc : Nat,
    B.foldl (fun a c => a * 10 + (c.toNat - 48)) acc
      = acc * 10 ^ B.length + digitsToNat B := by
  induction B with
  | nil => intro acc; simp [digitsToNat]
  | cons b bs ih =>
      intro acc
      show bs.foldl _ (acc * 10 + (b.toNat - 48)) = _
      rw [ih]
      have h2 : digitsToNat (b :: bs)
          = bs.foldl (fun a c => a * 10 + (c.toNat - 48)) (0 * 10 + (b.toNat - 48)) := rfl
      rw [h2, ih]
      simp [List.length_cons]
      ring

theorem digitsToNat_append (A B : List Char) :
    digitsToNat (A ++ B) = digitsToNat A * 10 ^ B.length + digitsToNat B := by
  unfold digitsToNat
  rw [List.foldl_append]
  exact digitsToNat_go B _

theorem valRev : ∀ L : List Nat, (∀ d ∈ L, d < 10) →
    digitsToNat (L.reverse.map digitChar) = Nat.ofDigits 10 L := by
  intro L
  induction L with
  | nil => intro _; simp [digitsToNat, Nat.ofDigits]
  | cons d L ih =>
      intro h
      simp only [List.reverse_cons, List.map_append, List.map]
      rw [digitsToNat_append, ih (fun x hx => h x (by simp [hx]))]
      have hv : digitsToNat [digitChar d] = d := by
        show 0 * 10 + ((digitChar d).toNat - 48) = d
        rw [digitChar_toNat d (h d (by simp))]
        omega
      rw [hv, Nat.ofDigits_cons]
      simp
      ring

theorem digitsToNat_natChars (n : Nat) : digitsToNat (natChars n) = n := by
  by_cases h0 : n = 0
  · subst h0; decide
  · unfold natChars
    rw [if_neg h0, natDigitsRev_eq n n le_rfl,
      valRev (Nat.digits 10 n) (fun d hd => Nat.digits_lt_base (by norm_num) hd)]
    exact_mod_cast Nat.ofDigits_digits 10 n

theorem natChars_digits (n : Nat) : ∀ c ∈ natChars n, c.isDigit = true := by
  unfold natChars
  by_cases h0 : n = 0
  · simp [h0]
  · rw [if_neg h0]
    intro c hc
    simp only [List.mem_map, List.mem_reverse] at hc
    obtain ⟨d, hd, rfl⟩ := hc
    rw [natDigitsRev_eq n n le_rfl] at hd
    exact digitChar_isDigit d (Nat.digits_lt_base (by norm_num) hd)

theorem natChars_ne_nil (n : Nat) : natChars n ≠ [] := by
  unfold natChars
  by_cases h0 : n = 0
  · simp [h0]
  · rw [if_neg h0, natDigitsRev_eq n n le_rfl]
    simp [Nat.digits_ne_nil_iff_ne_zero, h0]

theorem span_exact : ∀ ds rest : List Char, (∀ c ∈ ds, c.isDigit = true) →
    headNotDigit rest → spanDigits (ds ++ rest) = (ds, rest) := by
  intro ds
  induction ds with
  | nil =>
      intro rest _ hrest
      cases rest with
      | nil => rfl
      | cons c rs =>
          unfold headNotDigit at hrest
          simp [spanDigits, List.takeWhile, List.dropWhile, hrest]
  | cons d ds ih =>
      intro rest hds hrest
      have hd : d.isDigit = true := hds d (by simp)
      have hih := ih rest (fun c hc => hds c (by simp [hc])) hrest
      simp only [spanDigits, Prod.mk.injEq] at hih
      simp [spanDigits, List.takeWhile, List.dropWhile, hd, hih.1, hih.2]

theorem delim_not_digit (rest : List Char) (h : delimB rest = true) :
    headNotDigit rest := by
  cases rest with
  | nil => trivial
  | cons c rs =>
      simp only [delimB] at h
      rcases (by simpa using h : c = ',' ∨ c = ']' ∨ c = '}') with h1 | h1 | h1 <;>
        subst h1 <;> trivial

theorem digitsToNat_zeros (k : Nat) : digitsToNat (List.replicate k '0') = 0 := by
  induction k with
  | zero => rfl
  | succ k ih =>
      show (List.replicate k '0').foldl _ (0 * 10 + ('0'.toNat - 48)) = 0
      simpa [digitsToNat] using ih

theorem digitsToNat_pad (k : Nat) (ds : List Char) :
    digitsToNat (List.replicate k '0' ++ ds) = digitsToNat ds := by
  rw [digitsToNat_append, digitsToNat_zeros]
  ring

theorem padZeros_digits (len : Nat) (ds : List Char) (h : ∀ c ∈ ds, c.isDigit = true) :
    ∀ c ∈ padZeros len ds, c.isDigit = true := by
  intro c hc
  unfold padZeros at hc
  rcases List.mem_append.mp hc with hc | hc
  · rw [List.eq_of_mem_replicate hc]; decide
  · exact h c hc

theorem padZeros_length (len : Nat) (ds : List Char) :
    len ≤ (padZeros len ds).length := by
  unfold padZeros
  simp [List.length_append, List.length_replicate]
  omega

theorem parseUNum_repr (n e : Nat) (rest : List Char) (hd : delimB rest = true) :
    parseUNum (unsignedChars n e ++ rest) = some (((n : Int), e), rest) := by
  by_cases he : e = 0
  · subst he
    unfold unsignedChars
    rw [if_pos rfl]
    unfold parseUNum
    rw [span_exact (natChars n) rest (natChars_digits n) (delim_not_digit rest hd)]
    simp only
    rw [if_neg (natChars_ne_nil n)]
    cases rest with
    | nil => simp [digitsToNat_natChars]
    | cons c rs =>
        rcases (by simpa [delimB] using hd : c = ',' ∨ c = ']' ∨ c = '}') with h1 | h1 | h1 <;>
          subst h1 <;> simp [digitsToNat_natChars]
  · unfold unsignedChars
    rw [if_neg he]
    simp only
    set p := padZeros (e + 1) (natChars n) with hp
    set k := p.length - e with hk
    have hlen : e + 1 ≤ p.length := padZeros_length (e + 1) (natChars n)
    have hpd : ∀ c ∈ p, c.isDigit = true :=
      padZeros_digits (e + 1) (natChars n) (natChars_digits n)
    have htake : ∀ c ∈ p.take k, c.isDigit = true :=
      fun c hc => hpd c (List.take_subset k p hc)
    have hdropd : ∀ c ∈ p.drop k, c.isDigit = true :=
      fun c hc => hpd c (List.drop_subset k p hc)
    have harr : p.take k ++ '.' :: p.drop k ++ rest
        = p.take k ++ ('.' :: (p.drop k ++ rest)) := by
      simp [List.append_assoc]
    rw [harr]
    unfold parseUNum
    rw [span_exact (p.take k) ('.' :: (p.drop k ++ rest)) htake
      (by simp [headNotDigit])]
    simp only
    have htlen : (p.take k).length = k := by
      simp [List.length_take]
      omega
    have hdlen : (p.drop k).length = e := by
      simp [List.length_drop]
      omega
    rw [if_neg (by
      intro hnil
      rw [hnil] at htlen
      simp at htlen
      omega)]
    rw [span_exact (p.drop k) rest hdropd (delim_not_digit rest hd)]
    simp only
    rw [if_neg (by
      intro hnil
      rw [hnil] at hdlen
      simp at hdlen
      omega)]
    have hsplit : digitsToNat (p.take k) * 10 ^ e + digitsToNat (p.drop k) = n := by
      have h1 : p.take k ++ p.drop k = p := List.take_append_drop k p
      have h2 : digitsToNat p = n := by
        rw [hp]
        unfold padZeros
        rw [digitsToNat_pad, digitsToNat_natChars]
      calc digitsToNat (p.take k) * 10 ^ e + digitsToNat (p.drop k)
          = digitsToNat (p.take k) * 10 ^ (p.drop k).length + digitsToNat (p.drop k) := by
            rw [hdlen]
        _ = digitsToNat (p.take k ++ p.drop k) := (digitsToNat_append _ _).symm
        _ = n := by rw [h1, h2]
    rw [hdlen]
    have hint : (digitsToNat (p.take k) : Int) * (10 : Int) ^ e
        + (digitsToNat (p.drop k) : Int) = (n : Int) := by
      exact_mod_cast hsplit
    rw [hint]

theorem unsignedChars_head (n e : Nat) :
    ∃ c cs, unsignedChars n e = c :: cs ∧ c.isDigit = true := by
  unfold unsignedChars
  by_cases he : e = 0
  · rw [if_pos he]
    cases hnc : natChars n with
    | nil => exact absurd hnc (natChars_ne_nil n)
    | cons c cs =>
        exact ⟨c, cs, rfl, natChars_digits n c (by rw [hnc]; simp)⟩
  · rw [if_neg he]
    simp only
    set p := padZeros (e + 1) (natChars n) with hp
    set k := p.length - e with hk
    have hlen : e + 1 ≤ p.length := padZeros_length (e + 1) (natChars n)
    have htlen2 : (p.take k).length = k := by
      simp [List.length_take]
      omega
    cases htk : p.take k with
    | nil =>
        rw [htk] at htlen2
        simp at htlen2
        omega
    | cons c cs =>
        refine ⟨c, cs ++ '.' :: p.drop k, by simp [htk], ?_⟩
        have : c ∈ p.take k := by rw [htk]; simp
        exact padZeros_digits (e + 1) (natChars n) (natChars_digits n) c
          (List.take_subset k p this)

theorem numChars_head (m : Int) (e : Nat) :
    ∃ c cs, numChars m e = c :: cs ∧ (c = '-' ∨ c.isDigit = true) := by
  unfold numChars
  obtain ⟨c, cs, hcons, hdig⟩ := unsignedChars_head m.natAbs e
  by_cases hm : m < 0
  · exact ⟨'-', unsignedChars m.natAbs e, by simp [hm], Or.inl rfl⟩
  · exact ⟨c, cs, by simp [hm, hcons], Or.inr hdig⟩

theorem parseNumC_num (m : Int) (e : Nat) (rest : List Char) (hd : delimB rest = true) :
    parseNumC (numChars m e ++ rest) = some (.num m e, rest) := by
  unfold numChars
  by_cases hm : m < 0
  · rw [if_pos hm]
    show parseNumC ('-' :: (unsignedChars m.natAbs e ++ rest)) = _
    unfold parseNumC
    dsimp only
    rw [if_pos rfl, parseUNum_repr m.natAbs e rest hd]
    have hneg : -((m.natAbs : Int)) = m := by omega
    dsimp only [Option.map]
    rw [hneg]
  · rw [if_neg hm]
    simp only [List.nil_append]
    obtain ⟨c, cs, hcons, hdig⟩ := unsignedChars_head m.natAbs e
    rw [hcons]
    show parseNumC (c :: (cs ++ rest)) = _
    unfold parseNumC
    dsimp only
    rw [if_neg (by
      intro hh
      rw [hh] at hdig
      exact absurd hdig (by decide))]
    have : c :: (cs ++ rest) = unsignedChars m.natAbs e ++ rest := by
      rw [hcons]; simp
    rw [this, parseUNum_repr m.natAbs e rest hd]
    have hpos : ((m.natAbs : Int)) = m := by omega
    dsimp only [Option.map]
    rw [hpos]

theorem hexVal_hexChar (d : Nat) (h : d < 16) : hexVal (hexChar d) = some d := by
  unfold hexChar hexVal
  interval_cases d <;> decide

theorem psc_quote (rest : List Char) : parseStrChars ('"' :: rest) = some ([], rest) := by
  rw [parseStrChars.eq_def]; simp

theorem psc_plain (c : Char) (rest : List Char) (h1 : ¬ c = '"') (h2 : ¬ c = '\\') :
    parseStrChars (c :: rest) = (parseStrChars rest).map (fun p => (c :: p.1, p.2)) := by
  rw [parseStrChars.eq_def]; simp [h1, h2]

theorem psc_escq (rest : List Char) :
    parseStrChars ('\\' :: '"' :: rest)
      = (parseStrChars rest).map (fun p => ('"' :: p.1, p.2)) := by
  rw [parseStrChars.eq_def]; simp

theorem psc_escbs (rest : List Char) :
    parseStrChars ('\\' :: '\\' :: rest)
      = (parseStrChars rest).map (fun p => ('\\' :: p.1, p.2)) := by
  rw [parseStrChars.eq_def]; simp

theorem psc_escn (rest : List Char) :
    parseStrChars ('\\' :: 'n' :: rest)
      = (parseStrChars rest).map (fun p => ('\n' :: p.1, p.2)) := by
  rw [parseStrChars.eq_def]; simp

theorem psc_escr (rest : List Char) :
    parseStrChars ('\\' :: 'r' :: rest)
      = (parseStrChars rest).map (fun p => ('\r' :: p.1, p.2)) := by
  rw [parseStrChars.eq_def]; simp

theorem psc_esct (rest : List Char) :
    parseStrChars ('\\' :: 't' :: rest)
      = (parseStrChars rest).map (fun p => ('\t' :: p.1, p.2)) := by
  rw [parseStrChars.eq_def]; simp

theorem psc_escb (rest : List Char) :
    parseStrChars ('\\' :: 'b' :: rest)
      = (parseStrChars rest).map (fun p => (Char.ofNat 8 :: p.1, p.2)) := by
  rw [parseStrChars.eq_def]; simp

theorem psc_escf (rest : List Char) :
    parseStrChars ('\\' :: 'f' :: rest)
      = (parseStrChars rest).map (fun p => (Char.ofNat 12 :: p.1, p.2)) := by
  rw [parseStrChars.eq_def]; simp

theorem psc_escu (x1 x2 x3 x4 : Char) (a b c d : Nat) (rest : List Char)
    (ha : hexVal x1 = some a) (hb : hexVal x2 = some b)
    (hc : hexVal x3 = some c) (hd : hexVal x4 = some d) :
    parseStrChars ('\\' :: 'u' :: x1 :: x2 :: x3 :: x4 :: rest)
      = (parseStrChars rest).map (fun p =>
          (Char.ofNat (a * 4096 + b * 256 + c * 16 + d) :: p.1, p.2)) := by
  rw [parseStrChars.eq_def]; simp [ha, hb, hc, hd]

set_option maxRecDepth 4000 in
theorem parseStr_escape : ∀ cs rest : List Char,
    parseStrChars (escChars cs ++ '"' :: rest) = some (cs, rest) := by
  intro cs
  induction cs with
  | nil =>
      intro rest
      show parseStrChars ('"' :: rest) = some ([], rest)
      exact psc_quote rest
  | cons c cs ih =>
      intro rest
      have hstep : escChars (c :: cs) ++ '"' :: rest
          = escapeChar c ++ (escChars cs ++ '"' :: rest) := by
        simp [escChars]
      rw [hstep]
      by_cases h1 : c = '"'
      · subst h1
        have he : escapeChar '"' = ['\\', '"'] := by decide
        rw [he]
        show parseStrChars ('\\' :: '"' :: (escChars cs ++ '"' :: rest)) = _
        rw [psc_escq, ih]
        rfl
      · by_cases h2 : c = '\\'
        · subst h2
          have he : escapeChar '\\' = ['\\', '\\'] := by decide
          rw [he]
          show parseStrChars ('\\' :: '\\' :: (escChars cs ++ '"' :: rest)) = _
          rw [psc_escbs, ih]
          rfl
        · by_cases h3 : c = '\n'
          · subst h3
            have he : escapeChar '\n' = ['\\', 'n'] := by decide
            rw [he]
            show parseStrChars ('\\' :: 'n' :: (escChars cs ++ '"' :: rest)) = _
            rw [psc_escn, ih]
            rfl
          · by_cases h4 : c = '\r'
            · subst h4
              have he : escapeChar '\r' = ['\\', 'r'] := by decide
              rw [he]
              show parseStrChars ('\\' :: 'r' :: (escChars cs ++ '"' :: rest)) = _
              rw [psc_escr, ih]
              rfl
            · by_cases h5 : c = '\t'
              · subst h5
                have he : escapeChar '\t' = ['\\', 't'] := by decide
                rw [he]
                show parseStrChars ('\\' :: 't' :: (escChars cs ++ '"' :: rest)) = _
                rw [psc_esct, ih]
                rfl
              · by_cases h6 : c.toNat = 8
                · have he : escapeChar c = ['\\', 'b'] := by
                    unfold escapeChar
                    simp [h1, h2, h3, h4, h5, h6]
                  rw [he]
                  show parseStrChars ('\\' :: 'b' :: (escChars cs ++ '"' :: rest)) = _
                  rw [psc_escb, ih]
                  have hcc : Char.ofNat 8 = c := by
                    rw [← h6]; exact Char.ofNat_toNat c
                  simp
                  exact hcc
                · by_cases h7 : c.toNat = 12
                  · have he : escapeChar c = ['\\', 'f'] := by
                      unfold escapeChar
                      simp [h1, h2, h3, h4, h5, h6, h7]
                    rw [he]
                    show parseStrChars ('\\' :: 'f' :: (escChars cs ++ '"' :: rest)) = _
                    rw [psc_escf, ih]
                    have hcc : Char.ofNat 12 = c := by
                      rw [← h7]; exact Char.ofNat_toNat c
                    simp
                    exact hcc
                  · by_cases h8 : c.toNat < 32
                    · have he : escapeChar c = ['\\', 'u', '0', '0',
                          hexChar (c.toNat / 16), hexChar (c.toNat % 16)] := by
                        unfold escapeChar
                        simp [h1, h2, h3, h4, h5, h6, h7, h8]
                      rw [he]
                      show parseStrChars ('\\' :: 'u' :: '0' :: '0'
                        :: hexChar (c.toNat / 16) :: hexChar (c.toNat % 16)
                        :: (escChars cs ++ '"' :: rest)) = _
                      rw [psc_escu '0' '0' (hexChar (c.toNat / 16)) (hexChar (c.toNat % 16))
                        0 0 (c.toNat / 16) (c.toNat % 16) _ (by decide) (by decide)
                        (hexVal_hexChar _ (by omega)) (hexVal_hexChar _ (by omega)), ih]
                      have hcc : Char.ofNat (0 * 4096 + 0 * 256 + c.toNat / 16 * 16
                          + c.toNat % 16) = c := by
                        have hval : 0 * 4096 + 0 * 256 + c.toNat / 16 * 16
                            + c.toNat % 16 = c.toNat := by omega
                        rw [hval]; exact Char.ofNat_toNat c
                      dsimp only [Option.map]
                      rw [hcc]
                    · have he : escapeChar c = [c] := by
                        unfold escapeChar
                        simp [h1, h2, h3, h4, h5, h6, h7, h8]
                      rw [he]
                      show parseStrChars (c :: (escChars cs ++ '"' :: rest)) = _
                      rw [psc_plain c _ h1 h2, ih]
                      rfl

theorem string_mk_toList (s : String) : String.mk s.toList = s := by
  cases s
  rfl

theorem skipSpaces_cons (c : Char) (l : List Char)
    (h : ¬(c = ' ' ∨ c = '\n' ∨ c = '\t' ∨ c = '\r')) :
    skipSpaces (c :: l) = c :: l := by
  rw [skipSpaces.eq_def]
  simp [h]

theorem skipSpaces_space (l : List Char) : skipSpaces (' ' :: l) = skipSpaces l := by
  rw [skipSpaces.eq_def]
  simp

theorem parseVal_congr (fuel : Nat) (l1 l2 : List Char)
    (h : skipSpaces l1 = skipSpaces l2) : parseVal fuel l1 = parseVal fuel l2 := by
  cases fuel with
  | zero => rfl
  | succ f =>
      rw [parseVal.eq_def]
      conv_rhs => rw [parseVal.eq_def]
      dsimp only
      rw [h]

theorem parseVal_space (fuel : Nat) (l : List Char) :
    parseVal fuel (' ' :: l) = parseVal fuel l :=
  parseVal_congr fuel _ _ (skipSpaces_space l)

theorem dump_head (j : Json) : ∃ c cs, j.dumpChars = c :: cs ∧
    ((c = 'n' ∨ c = 't' ∨ c = 'f' ∨ c = '"' ∨ c = '[' ∨ c = '{')
      ∨ c = '-' ∨ c.isDigit = true) := by
  cases j with
  | null => exact ⟨'n', _, rfl, by simp⟩
  | bool b => cases b with
      | true => exact ⟨'t', _, rfl, by simp⟩
      | false => exact ⟨'f', _, rfl, by simp⟩
  | num m e =>
      obtain ⟨c, cs, hcons, hh⟩ := numChars_head m e
      exact ⟨c, cs, by simp [Json.dumpChars, hcons], Or.inr hh⟩
  | str s => exact ⟨'"', _, rfl, by simp⟩
  | arr xs => cases xs with
      | nil => exact ⟨'[', _, rfl, by simp⟩
      | cons x xs => exact ⟨'[', _, rfl, by simp⟩
  | obj kvs => cases kvs with
      | nil => exact ⟨'{', _, rfl, by simp⟩
      | cons k v kvs => exact ⟨'{', _, rfl, by simp⟩

theorem head_props (c : Char)
    (h : (c = 'n' ∨ c = 't' ∨ c = 'f' ∨ c = '"' ∨ c = '[' ∨ c = '{')
      ∨ c = '-' ∨ c.isDigit = true) :
    ¬(c = ' ' ∨ c = '\n' ∨ c = '\t' ∨ c = '\r') ∧ ¬ c = ']' ∧ ¬ c = '}'
      ∧ ¬ c = ',' ∧ ¬ c = ':' := by
  rcases h with (h | h | h | h | h | h) | h | h
  · subst h; refine ⟨by decide, by decide, by decide, by decide, by decide⟩
  · subst h; refine ⟨by decide, by decide, by decide, by decide, by decide⟩
  · subst h; refine ⟨by decide, by decide, by decide, by decide, by decide⟩
  · subst h; refine ⟨by decide, by decide, by decide, by decide, by decide⟩
  · subst h; refine ⟨by decide, by decide, by decide, by decide, by decide⟩
  · subst h; refine ⟨by decide, by decide, by decide, by decide, by decide⟩
  · subst h; refine ⟨by decide, by decide, by decide, by decide, by decide⟩
  · have hb : 48 ≤ c.toNat ∧ c.toNat ≤ 57 := by
      simp [Char.isDigit] at h
      exact ⟨h.1, h.2⟩
    refine ⟨?_, ?_, ?_, ?_, ?_⟩ <;>
      first
      | (intro hh
         rcases hh with hh | hh | hh | hh <;> (subst hh; revert hb; decide))
      | (intro hh; subst hh; revert hb; decide)

theorem num_head_not (c : Char) (h : c = '-' ∨ c.isDigit = true) :
    ¬ c = 'n' ∧ ¬ c = 't' ∧ ¬ c = 'f' ∧ ¬ c = '"' ∧ ¬ c = '[' ∧ ¬ c = '{' := by
  rcases h with h | h
  · subst h; refine ⟨by decide, by decide, by decide, by decide, by decide, by decide⟩
  · have hb : 48 ≤ c.toNat ∧ c.toNat ≤ 57 := by
      simp [Char.isDigit] at h
      exact ⟨h.1, h.2⟩
    refine ⟨?_, ?_, ?_, ?_, ?_, ?_⟩ <;> (intro hh; subst hh; revert hb; decide)

theorem delim_dumpTailA (xs : JArr) (rest : List Char) :
    delimB (JArr.dumpTail xs ++ ']' :: rest) = true := by
  cases xs with
  | nil => simp [JArr.dumpTail, delimB]
  | cons x xs => simp [JArr.dumpTail, delimB]

theorem delim_dumpTailO (kvs : JObj) (rest : List Char) :
    delimB (JObj.dumpTail kvs ++ '}' :: rest) = true := by
  cases kvs with
  | nil => simp [JObj.dumpTail, delimB]
  | cons k v kvs => simp [JObj.dumpTail, delimB]

theorem needV_pos (j : Json) : 1 ≤ j.needV := by
  cases j with
  | null => simp [Json.needV]
  | bool b => simp [Json.needV]
  | num m e => simp [Json.needV]
  | str s => simp [Json.needV]
  | arr xs => cases xs <;> simp [Json.needV] <;> omega
  | obj kvs => cases kvs <;> simp [Json.needV] <;> omega

theorem needT_posA (xs : JArr) : 1 ≤ JArr.needT xs := by
  cases xs <;> simp [JArr.needT]

theorem needT_posO (kvs : JObj) : 1 ≤ JObj.needT kvs := by
  cases kvs <;> simp [JObj.needT]

mutual

theorem parseVal_dump : ∀ (j : Json) (fuel : Nat) (rest : List Char),
    j.needV ≤ fuel → delimB rest = true →
    parseVal fuel (j.dumpChars ++ rest) = some (j, rest)
  | .null, fuel, rest, hf, _ => by
      obtain ⟨f, rfl⟩ : ∃ f, fuel = f + 1 :=
        ⟨fuel - 1, by have := needV_pos Json.null; omega⟩
      show parseVal (f + 1) ('n' :: 'u' :: 'l' :: 'l' :: rest) = some (.null, rest)
      rw [parseVal.eq_def]
      dsimp only
      rw [skipSpaces_cons 'n' _ (by decide)]
      simp
  | .bool true, fuel, rest, hf, _ => by
      obtain ⟨f, rfl⟩ : ∃ f, fuel = f + 1 :=
        ⟨fuel - 1, by have := needV_pos (Json.bool true); omega⟩
      show parseVal (f + 1) ('t' :: 'r' :: 'u' :: 'e' :: rest) = some (.bool true, rest)
      rw [parseVal.eq_def]
      dsimp only
      rw [skipSpaces_cons 't' _ (by decide)]
      simp
  | .bool false, fuel, rest, hf, _ => by
      obtain ⟨f, rfl⟩ : ∃ f, fuel = f + 1 :=
        ⟨fuel - 1, by have := needV_pos (Json.bool false); omega⟩
      show parseVal (f + 1) ('f' :: 'a' :: 'l' :: 's' :: 'e' :: rest)
        = some (.bool false, rest)
      rw [parseVal.eq_def]
      dsimp only
      rw [skipSpaces_cons 'f' _ (by decide)]
      simp
  | .num m e, fuel, rest, hf, hd => by
      obtain ⟨f, rfl⟩ : ∃ f, fuel = f + 1 :=
        ⟨fuel - 1, by have := needV_pos (Json.num m e); omega⟩
      obtain ⟨c, cs, hcons, hh⟩ := numChars_head m e
      have hnn := num_head_not c hh
      have hprops := head_props c (Or.inr hh)
      show parseVal (f + 1) (numChars m e ++ rest) = some (.num m e, rest)
      rw [hcons, List.cons_append, parseVal.eq_def]
      dsimp only
      rw [skipSpaces_cons c _ hprops.1]
      try dsimp only
      simp only [hnn.1, hnn.2.1, hnn.2.2.1, hnn.2.2.2.1, hnn.2.2.2.2.1,
        hnn.2.2.2.2.2, if_false, ite_false]
      have hback : c :: (cs ++ rest) = numChars m e ++ rest := by
        rw [hcons]; simp
      rw [hback, parseNumC_num m e rest hd]
  | .str s, fuel, rest, hf, _ => by
      obtain ⟨f, rfl⟩ : ∃ f, fuel = f + 1 :=
        ⟨fuel - 1, by have := needV_pos (Json.str s); omega⟩
      have harr : Json.dumpChars (.str s) ++ rest
          = '"' :: (escChars s.toList ++ ('"' :: rest)) := by
        show ('"' :: (escChars s.toList ++ ['"'])) ++ rest = _
        simp [List.append_assoc]
      rw [harr, parseVal.eq_def]
      dsimp only
      rw [skipSpaces_cons '"' _ (by decide)]
      try dsimp only
      simp only [(by decide : ¬ ('"' : Char) = 'n'), (by decide : ¬ ('"' : Char) = 't'),
        (by decide : ¬ ('"' : Char) = 'f'), if_false, ite_false,
        eq_self_iff_true, if_true]
      rw [parseStr_escape s.toList rest]
      simp [string_mk_toList]
  | .arr .nil, fuel, rest, hf, _ => by
      obtain ⟨f2, rfl⟩ : ∃ f2, fuel = f2 + 2 := ⟨fuel - 2, by
        simp [Json.needV] at hf; omega⟩
      show parseVal (f2 + 1 + 1) ('[' :: (']' :: rest)) = some (.arr .nil, rest)
      rw [parseVal.eq_def]
      dsimp only
      rw [skipSpaces_cons '[' _ (by decide)]
      try dsimp only
      simp only [(by decide : ¬ ('[' : Char) = 'n'), (by decide : ¬ ('[' : Char) = 't'),
        (by decide : ¬ ('[' : Char) = 'f'), (by decide : ¬ ('[' : Char) = '"'),
        if_false, ite_false, eq_self_iff_true, if_true]
      rw [parseArr.eq_def]
      try dsimp only
      rw [skipSpaces_cons ']' _ (by decide)]
      simp
  | .arr (.cons x xs), fuel, rest, hf, _ => by
      have hneed : 2 + max x.needV (JArr.needT xs) ≤ fuel := hf
      obtain ⟨f2, rfl⟩ : ∃ f2, fuel = f2 + 2 := ⟨fuel - 2, by omega⟩
      have harr : Json.dumpChars (.arr (.cons x xs)) ++ rest
          = '[' :: (x.dumpChars ++ (JArr.dumpTail xs ++ (']' :: rest))) := by
        show ('[' :: (x.dumpChars ++ (JArr.dumpTail xs ++ [']']))) ++ rest = _
        simp [List.append_assoc]
      rw [harr]
      show parseVal (f2 + 1 + 1) _ = _
      rw [parseVal.eq_def]
      dsimp only
      rw [skipSpaces_cons '[' _ (by decide)]
      try dsimp only
      simp only [(by decide : ¬ ('[' : Char) = 'n'), (by decide : ¬ ('[' : Char) = 't'),
        (by decide : ¬ ('[' : Char) = 'f'), (by decide : ¬ ('[' : Char) = '"'),
        if_false, ite_false, eq_self_iff_true, if_true]
      obtain ⟨c, cs, hcons, hh⟩ := dump_head x
      have hprops := head_props c hh
      rw [hcons, List.cons_append, parseArr.eq_def]
      try dsimp only
      rw [skipSpaces_cons c _ hprops.1]
      try dsimp only
      simp only [hprops.2.1, if_false, ite_false]
      have hback : c :: (cs ++ (JArr.dumpTail xs ++ (']' :: rest)))
          = x.dumpChars ++ (JArr.dumpTail xs ++ (']' :: rest)) := by
        rw [hcons]; simp
      rw [hback]
      rw [parseVal_dump x f2 (JArr.dumpTail xs ++ (']' :: rest))
        (by omega) (delim_dumpTailA xs rest)]
      try dsimp only
      rw [parseArrTail_dump xs f2 rest (by omega)]
  | .obj .nil, fuel, rest, hf, _ => by
      obtain ⟨f2, rfl⟩ : ∃ f2, fuel = f2 + 2 := ⟨fuel - 2, by
        simp [Json.needV] at hf; omega⟩
      show parseVal (f2 + 1 + 1) ('{' :: ('}' :: rest)) = some (.obj .nil, rest)
      rw [parseVal.eq_def]
      dsimp only
      rw [skipSpaces_cons '{' _ (by decide)]
      try dsimp only
      simp only [(by decide : ¬ ('{' : Char) = 'n'), (by decide : ¬ ('{' : Char) = 't'),
        (by decide : ¬ ('{' : Char) = 'f'), (by decide : ¬ ('{' : Char) = '"'),
        (by decide : ¬ ('{' : Char) = '['), if_false, ite_false,
        eq_self_iff_true, if_true]
      rw [parseObj.eq_def]
      try dsimp only
      rw [skipSpaces_cons '}' _ (by decide)]
      simp
  | .obj (.cons k v kvs), fuel, rest, hf, _ => by
      have hneed : 2 + max v.needV (JObj.needT kvs) ≤ fuel := hf
      obtain ⟨f2, rfl⟩ : ∃ f2, fuel = f2 + 2 := ⟨fuel - 2, by omega⟩
      have harr : Json.dumpChars (.obj (.cons k v kvs)) ++ rest
          = '{' :: ('"' :: (escChars k.toList ++ ('"' :: (':' :: (' ' ::
            (v.dumpChars ++ (JObj.dumpTail kvs ++ ('}' :: rest)))))))) := by
        show ('{' :: ('"' :: (escChars k.toList ++ ['"', ':', ' ']
          ++ (v.dumpChars ++ (JObj.dumpTail kvs ++ ['}']))))) ++ rest = _
        simp [List.append_assoc]
      rw [harr]
      show parseVal (f2 + 1 + 1) _ = _
      rw [parseVal.eq_def]
      dsimp only
      rw [skipSpaces_cons '{' _ (by decide)]
      try dsimp only
      simp only [(by decide : ¬ ('{' : Char) = 'n'), (by decide : ¬ ('{' : Char) = 't'),
        (by decide : ¬ ('{' : Char) = 'f'), (by decide : ¬ ('{' : Char) = '"'),
        (by decide : ¬ ('{' : Char) = '['), if_false, ite_false,
        eq_self_iff_true, if_true]
      rw [parseObj.eq_def]
      try dsimp only
      rw [skipSpaces_cons '"' _ (by decide)]
      try dsimp only
      simp only [(by decide : ¬ ('"' : Char) = '}'), if_false, ite_false,
        eq_self_iff_true, if_true]
      rw [parseStr_escape k.toList (':' :: (' ' :: (v.dumpChars
        ++ (JObj.dumpTail kvs ++ ('}' :: rest)))))]
      try dsimp only
      rw [skipSpaces_cons ':' _ (by decide)]
      try dsimp only
      simp only [eq_self_iff_true, if_true]
      rw [parseVal_space f2 (v.dumpChars ++ (JObj.dumpTail kvs ++ ('}' :: rest)))]
      rw [parseVal_dump v f2 (JObj.dumpTail kvs ++ ('}' :: rest))
        (by omega) (delim_dumpTailO kvs rest)]
      try dsimp only
      rw [parseObjTail_dump kvs f2 rest (by omega)]
      simp [string_mk_toList]

theorem parseArrTail_dump : ∀ (xs : JArr) (fuel : Nat) (rest : List Char),
    JArr.needT xs ≤ fuel →
    parseArrTail fuel (JArr.dumpTail xs ++ (']' :: rest)) = some (xs, rest)
  | .nil, fuel, rest, hf => by
      obtain ⟨f, rfl⟩ : ∃ f, fuel = f + 1 :=
        ⟨fuel - 1, by have := needT_posA JArr.nil; omega⟩
      show parseArrTail (f + 1) (']' :: rest) = some (.nil, rest)
      rw [parseArrTail.eq_def]
      dsimp only
      rw [skipSpaces_cons ']' _ (by decide)]
      simp
  | .cons x xs, fuel, rest, hf => by
      have hneed : 1 + max x.needV (JArr.needT xs) ≤ fuel := hf
      obtain ⟨f, rfl⟩ : ∃ f, fuel = f + 1 := ⟨fuel - 1, by omega⟩
      have harr : JArr.dumpTail (.cons x xs) ++ (']' :: rest)
          = ',' :: (' ' :: (x.dumpChars ++ (JArr.dumpTail xs ++ (']' :: rest)))) := by
        show (',' :: ' ' :: (x.dumpChars ++ JArr.dumpTail xs)) ++ (']' :: rest) = _
        simp [List.append_assoc]
      rw [harr, parseArrTail.eq_def]
      dsimp only
      rw [skipSpaces_cons ',' _ (by decide)]
      try dsimp only
      simp only [(by decide : ¬ (',' : Char) = ']'), if_false, ite_false,
        eq_self_iff_true, if_true]
      rw [parseVal_space f (x.dumpChars ++ (JArr.dumpTail xs ++ (']' :: rest)))]
      rw [parseVal_dump x f (JArr.dumpTail xs ++ (']' :: rest))
        (by omega) (delim_dumpTailA xs rest)]
      try dsimp only
      rw [parseArrTail_dump xs f rest (by omega)]

theorem parseObjTail_dump : ∀ (kvs : JObj) (fuel : Nat) (rest : List Char),
    JObj.needT kvs ≤ fuel →
    parseObjTail fuel (JObj.dumpTail kvs ++ ('}' :: rest)) = some (kvs, rest)
  | .nil, fuel, rest, hf => by
      obtain ⟨f, rfl⟩ : ∃ f, fuel = f + 1 :=
        ⟨fuel - 1, by have := needT_posO JObj.nil; omega⟩
      show parseObjTail (f + 1) ('}' :: rest) = some (.nil, rest)
      rw [parseObjTail.eq_def]
      dsimp only
      rw [skipSpaces_cons '}' _ (by decide)]
      simp
  | .cons k v kvs, fuel, rest, hf => by
      have hneed : 1 + max v.needV (JObj.needT kvs) ≤ fuel := hf
      obtain ⟨f, rfl⟩ : ∃ f, fuel = f + 1 := ⟨fuel - 1, by omega⟩
      have harr : JObj.dumpTail (.cons k v kvs) ++ ('}' :: rest)
          = ',' :: (' ' :: ('"' :: (escChars k.toList ++ ('"' :: (':' :: (' ' ::
            (v.dumpChars ++ (JObj.dumpTail kvs ++ ('}' :: rest))))))))) := by
        show (',' :: ' ' :: ('"' :: (escChars k.toList ++ ['"', ':', ' ']
          ++ (v.dumpChars ++ JObj.dumpTail kvs)))) ++ ('}' :: rest) = _
        simp [List.append_assoc]
      rw [harr, parseObjTail.eq_def]
      dsimp only
      rw [skipSpaces_cons ',' _ (by decide)]
      try dsimp only
      simp only [(by decide : ¬ (',' : Char) = '}'), if_false, ite_false,
        eq_self_iff_true, if_true]
      rw [skipSpaces_space ('"' :: (escChars k.toList ++ ('"' :: (':' :: (' ' ::
        (v.dumpChars ++ (JObj.dumpTail kvs ++ ('}' :: rest))))))))]
      rw [skipSpaces_cons '"' _ (by decide)]
      try dsimp only
      simp only [eq_self_iff_true, if_true]
      rw [parseStr_escape k.toList (':' :: (' ' :: (v.dumpChars
        ++ (JObj.dumpTail kvs ++ ('}' :: rest)))))]
      try dsimp only
      rw [skipSpaces_cons ':' _ (by decide)]
      try dsimp only
      simp only [eq_self_iff_true, if_true]
      rw [parseVal_space f (v.dumpChars ++ (JObj.dumpTail kvs ++ ('}' :: rest)))]
      rw [parseVal_dump v f (JObj.dumpTail kvs ++ ('}' :: rest))
        (by omega) (delim_dumpTailO kvs rest)]
      try dsimp only
      rw [parseObjTail_dump kvs f rest (by omega)]
      simp [string_mk_toList]

end

mutual

theorem needV_le : ∀ j : Json, j.needV ≤ j.dumpChars.length + 1
  | .null => by simp [Json.needV, Json.dumpChars]
  | .bool true => by simp [Json.needV, Json.dumpChars]
  | .bool false => by simp [Json.needV, Json.dumpChars]
  | .num m e => by simp [Json.needV]
  | .str s => by simp [Json.needV]
  | .arr .nil => by simp [Json.needV, Json.dumpChars]
  | .arr (.cons x xs) => by
      have h1 := needV_le x
      have h2 := needT_leA xs
      simp only [Json.needV, Json.dumpChars, List.length_cons, List.length_append]
      omega
  | .obj .nil => by simp [Json.needV, Json.dumpChars]
  | .obj (.cons k v kvs) => by
      have h1 := needV_le v
      have h2 := needT_leO kvs
      simp only [Json.needV, Json.dumpChars, List.length_cons, List.length_append]
      omega

theorem needT_leA : ∀ xs : JArr, JArr.needT xs ≤ (JArr.dumpTail xs).length + 1
  | .nil => by simp [JArr.needT, JArr.dumpTail]
  | .cons x xs => by
      have h1 := needV_le x
      have h2 := needT_leA xs
      simp only [JArr.needT, JArr.dumpTail, List.length_cons, List.length_append]
      omega

theorem needT_leO : ∀ kvs : JObj, JObj.needT kvs ≤ (JObj.dumpTail kvs).length + 1
  | .nil => by simp [JObj.needT, JObj.dumpTail]
  | .cons k v kvs => by
      have h1 := needV_le v
      have h2 := needT_leO kvs
      simp only [JObj.needT, JObj.dumpTail, List.length_cons, List.length_append]
      omega

end

/-- `json.load` inverts `json.dumps`: the codec is lossless on every JSON
value. -/
theorem loads_dumps (j : Json) : loads (dumps j) = some j := by
  unfold loads dumps
  have hp := parseVal_dump j (j.dumpChars.length + 1) []
    (le_trans (needV_le j) (by omega)) rfl
  rw [List.append_nil] at hp
  show (match parseVal (j.dumpChars.length + 1) j.dumpChars with
    | some (jv, rest) => if skipSpaces rest = [] then some jv else none
    | none => none) = some j
  rw [hp]
  simp [skipSpaces]

/-- C7: the transcript store is lossless — `readLocalTranscript` run on
the file that `saveTranscript` wrote returns exactly the response object
that was saved, so re-running the projector in `--local` mode on a
previously saved transcript yields the same Output Record as the live run
that produced it. -/
theorem C7_local_roundtrip (r : Json) (args : Config)
    (files : String → Option String) (path : String) :
    readLocalTranscript (saveTranscript files r path).1 path = .ok r ∧
    (match readLocalTranscript (saveTranscript files r path).1 path with
     | .ok j => parseTranscript j args
     | .error e => .error e) = parseTranscript r args := by
  have h : readLocalTranscript (saveTranscript files r path).1 path = .ok r := by
    simp [readLocalTranscript, saveTranscript, loads_dumps]
  exact ⟨h, by rw [h]⟩

/-- Helper: the `DG_AUTH` early return of `parseCredentials`. -/
theorem parseCredentials_env (args : Config) (w : World) (inputs : List String)
    (v : String) (henv : w.env "DG_AUTH" = some v) (hsc : args.storeCreds = false) :
    parseCredentials args w inputs = .ok (v, [], inputs) := by
  simp [parseCredentials, henv, hsc]

/-- C8: if the environment variable `DG_AUTH` is set and
`--store-credentials` was not requested, the credential resolver returns
the environment value verbatim — no prompt is issued (no events, the
input stream is untouched) and no re-encoding happens. -/
theorem C8_env_credentials (args : Config) (w : World) (inputs : List String)
    (v : String) (henv : w.env "DG_AUTH" = some v) (hsc : args.storeCreds = false) :
    parseCredentials args w inputs = .ok (v, [], inputs) :=
  parseCredentials_env args w inputs v henv hsc

theorem C8_witness :
    parseCredentials {}
      ⟨fun _ => none, fun _ => false, fun _ => [],
       fun k => if k = "DG_AUTH" then some "SECRET-TOKEN" else none,
       fun _ _ => Json.null⟩ [] = .ok ("SECRET-TOKEN", [], []) :=
  C8_env_credentials {} _ [] "SECRET-TOKEN" rfl rfl

/-- C1 (counterexample): the single `--file` branch of `main` has no
`--keep` check — with `--keep` set and the output file already present, a
file-mode run still issues a network call (and overwrites the cached
transcript), refuting the claim's "every mode" clause. -/
theorem C1_counterexample : ¬ claimC1Statement := by
  intro h
  have h2 := h.2 {input_file := some "a.wav", keep := true}
    ⟨fun p => if p = "a.wav" then some "AUDIO"
              else if p = "./transcripts/a.wav.json" then some "OLD" else none,
     fun _ => true, fun _ => [],
     fun k => if k = "DG_AUTH" then some "TOK" else none,
     fun _ _ => Json.null⟩ []
    rfl rfl rfl rfl rfl (by decide)
  exact absurd h2.1 (by decide)

/-- C1 (amended): the `--keep` skip is real but only in the `--dir`
iteration: there, when the output file exists and `--keep` is set, the
iteration leaves the file system untouched, consumes no input, prints
only the skip notice and raises nothing — in particular no network call
and no write occur for that input.  (The single `--file` branch has no
such check; see the counterexample.) -/
theorem C1_keep_skips_existing (args : Config) (creds : Option String)
    (outputFolder : String) (w : World) (files : String → Option String)
    (inputs : List String) (file : String)
    (hl : args.localMode = false) (hk : args.keep = true)
    (he : (files (joinPath outputFolder file ++ ".json")).isSome = true) :
    processDirFile args creds outputFolder w files inputs file =
      (files, inputs,
       [.print (.line "Transcript already exists for audio file, and --keep is set.")],
       none) := by
  simp [processDirFile, hl, hk, he]

theorem C1_witness :
    processDirFile {keep := true} none "o"
      ⟨fun _ => none, fun _ => false, fun _ => [], fun _ => none, fun _ _ => Json.null⟩
      (fun p => if p = "o/a.wav.json" then some "OLD" else none) [] "a.wav" =
      ((fun p => if p = "o/a.wav.json" then some "OLD" else none), [],
       [.print (.line "Transcript already exists for audio file, and --keep is set.")],
       none) :=
  C1_keep_skips_existing _ _ _ _ _ _ _ rfl rfl (by decide)

/-- C2 (counterexample): the claim's "writes no transcript file" part
fails: `main` saves the raw response to disk before the projector ever
looks for the `search` field, so a live run on a search-less response
still writes the transcript file. -/
theorem C2_counterexample : ¬ claimC2Statement := by
  intro h
  have h2 := h {input_file := some "a.wav", search := ["foo"]}
    ⟨fun p => if p = "a.wav" then some "AUDIO" else none,
     fun _ => true, fun _ => [],
     fun k => if k = "DG_AUTH" then some "TOK" else none,
     fun _ _ => sampleRespNoSearch "hello"⟩ []
    (.str "hello") (.keyError "search") "TOK"
    rfl (by decide) rfl rfl rfl rfl rfl rfl (by decide)
    (fun _ _ => rfl) (fun _ _ => rfl)
  exact absurd h2.1 (by decide)

/-- C2 (amended): when the response lacks the `search` field, a `--file`
run with `--search` requested and `--verbose` unset prints the diagnostic
and produces no Output Record — but the raw response IS written to disk,
because `main` saves the transcript before calling the projector. -/
theorem C2_search_missing (args : Config) (w : World) (inputs : List String)
    (tr : Json) (e : Err) (v : String)
    (hv : args.verbose = false) (hs : args.search ≠ [])
    (hl : args.localMode = false) (hd : args.input_dir = none)
    (hu : args.url = none) (hf : optTruthy args.input_file = true)
    (hsc : args.storeCreds = false) (henv : w.env "DG_AUTH" = some v)
    (hfile : (w.files (optStr args.input_file)).isSome = true)
    (htr : ∀ target payload, transcriptPath (w.net target payload) = .ok tr)
    (hsf : ∀ target payload, searchField (w.net target payload) = .error e) :
    (∀ target payload, parseTranscript (w.net target payload) args =
       .ok ([.line "No search data found for transcript."], none)) ∧
    ((runMain args w inputs).events.all (fun ev => ! ev.isRecord) = true) ∧
    Event.print (.line "No search data found for transcript.")
      ∈ (runMain args w inputs).events ∧
    ∃ p c, Event.fileWrite p c ∈ (runMain args w inputs).events := by
  obtain ⟨contents, hc⟩ := Option.isSome_iff_exists.mp hfile
  have hcred := parseCredentials_env args w inputs v henv hsc
  have hdn : optTruthy args.input_dir = false := by rw [hd]; rfl
  have hun : optTruthy args.url = false := by rw [hu]; rfl
  have hget : getTranscipt args (some v) w inputs none =
      .ok (w.net (apiRequest args) contents,
           [.netCall args.fqdn (apiRequest args) contents], inputs) := by
    simp [getTranscipt, hf, hc]
  have hproj : parseTranscript (w.net (apiRequest args) contents) args =
      .ok ([.line "No search data found for transcript."], none) :=
    parseTranscript_no_search _ args tr e hv hs (htr _ _) (hsf _ _)
  have hrun : runMain args w inputs =
      ⟨(if w.isDir (outputFolderOf args) then []
        else [.mkdir (outputFolderOf args)]) ++
       [.print (.line ("\nProcessing: " ++ optStr args.input_file)),
        .netCall args.fqdn (apiRequest args) contents,
        .fileWrite (joinPath (outputFolderOf args)
            (baseName (optStr args.input_file)) ++ ".json")
          (dumps (w.net (apiRequest args) contents)),
        .print (.line "No search data found for transcript.")],
       (saveTranscript w.files (w.net (apiRequest args) contents)
         (joinPath (outputFolderOf args)
            (baseName (optStr args.input_file)) ++ ".json")).1,
       none⟩ := by
    simp only [runMain, hl, hcred, hdn, hun, hf, hget, hproj, fileBranch,
      Bool.false_eq_true, if_false, ite_false, List.nil_append, List.append_nil,
      if_true, ite_true, saveTranscript, List.map_cons, List.map_nil,
      List.cons_append, List.singleton_append]
  refine ⟨fun t p => parseTranscript_no_search _ args tr e hv hs (htr t p) (hsf t p),
    ?_, ?_, ?_⟩
  · rw [hrun]
    cases w.isDir (outputFolderOf args) <;> simp [Event.isRecord]
  · rw [hrun]
    simp
  · refine ⟨joinPath (outputFolderOf args) (baseName (optStr args.input_file)) ++ ".json",
      dumps (w.net (apiRequest args) contents), ?_⟩
    rw [hrun]
    simp

theorem C2_witness :
    (∀ target payload,
       parseTranscript (sampleWorldC2.net target payload) sampleArgsC2 =
       .ok ([.line "No search data found for transcript."], none)) ∧
    ((runMain sampleArgsC2 sampleWorldC2 []).events.all
       (fun ev => ! ev.isRecord) = true) ∧
    Event.print (.line "No search data found for transcript.")
      ∈ (runMain sampleArgsC2 sampleWorldC2 []).events ∧
    ∃ p c, Event.fileWrite p c ∈ (runMain sampleArgsC2 sampleWorldC2 []).events :=
  C2_search_missing sampleArgsC2 sampleWorldC2 [] (.str "hey") (.keyError "search")
    "TOK2" rfl (by decide) rfl rfl rfl rfl rfl rfl (by decide)
    (fun _ _ => rfl) (fun _ _ => rfl)

/-- C9: in a `--url` run (no `--file` or `--dir`), after the Output
Record lines are printed the run ends with an unhandled `NameError` (the
output-folder check reads the undefined name `arg`), and no transcript
file is ever written: the events are exactly the optional mkdir, the one
network call with the `{"url": ...}` payload, and the projector's
prints. -/
theorem C9_url_nameerror (args : Config) (w : World) (inputs : List String)
    (outs : List Out) (rec : Option Json) (v : String)
    (hl : args.localMode = false) (hd : args.input_dir = none)
    (hf : args.input_file = none) (hu : optTruthy args.url = true)
    (hsc : args.storeCreds = false) (henv : w.env "DG_AUTH" = some v)
    (hp : parseTranscript (w.net (apiRequest args)
        ("\x7b\"url\":\"" ++ optStr args.url ++ "\"\x7d")) args = .ok (outs, rec)) :
    (runMain args w inputs).err = some (.nameError "arg") ∧
    ((runMain args w inputs).events.all (fun ev => ! ev.isWrite) = true) ∧
    (runMain args w inputs).events =
      (if w.isDir (outputFolderOf args) then []
       else [.mkdir (outputFolderOf args)]) ++
      .netCall args.fqdn (apiRequest args) ("\x7b\"url\":\"" ++ optStr args.url ++ "\"\x7d")
        :: outs.map .print := by
  have hcred := parseCredentials_env args w inputs v henv hsc
  have hdn : optTruthy args.input_dir = false := by rw [hd]; rfl
  have hfn : optTruthy args.input_file = false := by rw [hf]; rfl
  have hnone : optTruthy none = false := rfl
  have hget : getTranscipt args (some v) w inputs none =
      .ok (w.net (apiRequest args) ("\x7b\"url\":\"" ++ optStr args.url ++ "\"\x7d"),
           [.netCall args.fqdn (apiRequest args)
             ("\x7b\"url\":\"" ++ optStr args.url ++ "\"\x7d")], inputs) := by
    simp [getTranscipt, hfn, hu, hnone]
  have hrun : runMain args w inputs =
      ⟨(if w.isDir (outputFolderOf args) then []
        else [.mkdir (outputFolderOf args)]) ++
       .netCall args.fqdn (apiRequest args) ("\x7b\"url\":\"" ++ optStr args.url ++ "\"\x7d")
         :: outs.map .print,
       w.files, some (.nameError "arg")⟩ := by
    simp only [runMain, hl, hcred, hdn, hfn, hu, urlBranch, hget, hp,
      Bool.false_eq_true, if_false, ite_false, List.nil_append, List.append_nil,
      if_true, ite_true, List.cons_append, List.singleton_append]
  refine ⟨by rw [hrun], ?_, by rw [hrun]⟩
  rw [hrun]
  cases w.isDir (outputFolderOf args) <;>
    simp [Event.isWrite, List.all_map, List.all_eq_true]

theorem C9_witness :
    (runMain sampleArgsC9 sampleWorldC9 []).err = some (.nameError "arg") ∧
    ((runMain sampleArgsC9 sampleWorldC9 []).events.all
       (fun ev => ! ev.isWrite) = true) ∧
    (runMain sampleArgsC9 sampleWorldC9 []).events =
      [.netCall "brain.deepgram.com" (apiRequest sampleArgsC9)
         "\x7b\"url\":\"http://x/a.wav\"\x7d",
       .print (.record (.str "yo"))] := by
  have h := C9_url_nameerror sampleArgsC9 sampleWorldC9 []
    [.record (.str "yo")] (some (.str "yo")) "TOK3"
    rfl rfl rfl rfl rfl rfl (by decide)
  exact ⟨h.1, h.2.1, by rw [h.2.2]; decide⟩

end DG
